import Mathlib

/-!
# New_Alarm_Cond.c : the alarm registry, the monitor and the display workers

A shallow embedding of `src/New_Alarm_Cond.c`.

* Linked lists (`alarm_list`, `change_request_list`, `display_alarm_thread_list`, a
  worker's `alarm_queue`) are Lean lists, head first.
* `int` and `time_t` values are integers, `pthread_t` values are natural numbers
  (`0` is the value the source uses for "no thread").
* Every critical section of the source is one atomic step of the model: the
  `Start_Alarm` branch of `main`, the `Change_Alarm` branch of `main`, one iteration of
  the monitor loop, one iteration of a display worker loop.
* Each `printf` that reports an event of the scheduler is an `Event`; the `DEBUG` prints
  are left out. Events carry the thread and alarm numbers of the printed line.
* The functions are first embedded in their intended sense: every `printf` returns, the
  Registry does not change during the timed wait of the monitor, a display worker runs on
  its Directory node. The section "The program as written" has the definitions without
  these three readings.
-/

namespace AlarmCond

/-! ## Data model -/

/-- The record `alarm_t` (its `next` link is the tail of the list holding it). -/
structure alarm_t where
  id : Int
  group_id : Int
  seconds : Int
  time : Int
  message : String
  display_thread_id : Nat
  deriving DecidableEq, Repr

/-- The record `change_request_t`. -/
structure change_request_t where
  alarm_id : Int
  new_group_id : Int
  new_seconds : Int
  new_time : Int
  new_message : String
  deriving DecidableEq, Repr

/-- The target of the `alarm_t *alarm` pointer of a queue node. The Directory code reads
only `alarm->id` through that pointer, and an alarm's `id` is never written after the alarm
is created, so the back-reference is kept as that id. -/
structure alarm_ref where
  id : Int
  deriving DecidableEq, Repr

/-- The record `alarm_queue_node_t`. -/
structure alarm_queue_node_t where
  alarm : alarm_ref
  reassigned : Int
  message_changed : Int
  deriving DecidableEq, Repr

/-- The record `thread_node_t` (mutex and condition variable have no state in an atomic
model). -/
structure thread_node_t where
  thread_id : Nat
  group_id : Int
  alarm_count : Int
  alarm_queue : List alarm_queue_node_t
  deriving DecidableEq, Repr

/-- The three global lists, and the number of display threads `pthread_create` has
started so far: the k-th display thread gets the id k, so ids are non-zero and fresh. -/
structure State where
  alarm_list : List alarm_t
  change_request_list : List change_request_t
  display_alarm_thread_list : List thread_node_t
  threads_created : Nat
  deriving DecidableEq, Repr

/-- The lists are all `NULL` when `main` starts. -/
def State.init : State :=
  { alarm_list := [], change_request_list := [], display_alarm_thread_list := [],
    threads_created := 0 }

/-- The lines the program prints about the scheduler. -/
inductive Event where
  | alarm_inserted (alarm_id : Int)
  | worker_created (thread_id : Nat) (alarm_id : Int)
  | worker_assigned_existing (thread_id : Nat) (alarm_id : Int)
  | change_request_inserted (alarm_id : Int)
  | alarm_removed_expired (alarm_id : Int)
  | change_applied (alarm_id : Int)
  | change_invalid (alarm_id : Int)
  | worker_takeover (thread_id : Nat) (alarm_id : Int)
  | worker_stop (thread_id : Nat) (alarm_id : Int)
  | worker_message_changed (thread_id : Nat) (alarm_id : Int)
  | worker_render (thread_id : Nat) (alarm_id : Int)
  | worker_exit (thread_id : Nat)
  deriving DecidableEq, Repr

/-! ## Worker Directory -/

/-- The function `add_thread_node`: a node with no alarms, linked in front of the list. -/
def add_thread_node (head : List thread_node_t) (tid : Nat) (group_id : Int) :
    List thread_node_t :=
  { thread_id := tid, group_id := group_id, alarm_count := 0, alarm_queue := [] } :: head

/-- The inner loop of `signal_display_thread`: the first node of the queue whose alarm has
the id gets both flags, the loop then breaks. -/
def set_flags (alarm_id reassigned message_changed : Int) :
    List alarm_queue_node_t → List alarm_queue_node_t
  | [] => []
  | queue_node :: rest =>
    if queue_node.alarm.id = alarm_id then
      { queue_node with reassigned := reassigned, message_changed := message_changed } :: rest
    else queue_node :: set_flags alarm_id reassigned message_changed rest

/-- The function `signal_display_thread`: the first thread node with the thread id has its
queue flagged, the loop then breaks. -/
def signal_display_thread (thread_id : Nat) (alarm_id reassigned message_changed : Int) :
    List thread_node_t → List thread_node_t
  | [] => []
  | current :: rest =>
    if current.thread_id = thread_id then
      { current with
        alarm_queue := set_flags alarm_id reassigned message_changed current.alarm_queue }
        :: rest
    else current :: signal_display_thread thread_id alarm_id reassigned message_changed rest

/-- The function `find_thread_id_by_alarm_id`: the first thread node whose queue has a node
for the id, `0` when there is none. -/
def find_thread_id_by_alarm_id (alarm_id : Int) : List thread_node_t → Nat
  | [] => 0
  | current :: rest =>
    if current.alarm_queue.any (fun node => decide (node.alarm.id = alarm_id)) then
      current.thread_id
    else find_thread_id_by_alarm_id alarm_id rest

/-- The scan of `find_or_create_thread_for_group`: the thread id of the first node serving
the group, `0` when the loop ends without one. -/
def find_thread_for_group (group_id : Int) : List thread_node_t → Nat
  | [] => 0
  | current :: rest =>
    if current.group_id = group_id then current.thread_id
    else find_thread_for_group group_id rest

/-- The function `find_or_create_thread_for_group`, on the Directory and the thread
counter. -/
def find_or_create_thread_for_group (group_id : Int) (s : State) : Nat × State :=
  let thread_id := find_thread_for_group group_id s.display_alarm_thread_list
  if thread_id = 0 then
    let thread_id := s.threads_created + 1
    (thread_id,
      { s with
        threads_created := s.threads_created + 1
        display_alarm_thread_list :=
          add_thread_node s.display_alarm_thread_list thread_id group_id })
  else (thread_id, s)

/-! ## Registry and change-request queue -/

/-- The function `alarm_insert`: in front of the first alarm whose id is at least the new
id, at the end when there is none. -/
def alarm_insert (alarm : alarm_t) : List alarm_t → List alarm_t
  | [] => [alarm]
  | next :: rest =>
    if next.id ≥ alarm.id then alarm :: next :: rest
    else next :: alarm_insert alarm rest

/-- The function `insert_change_request`, the same walk on `alarm_id`. -/
def insert_change_request (new_request : change_request_t) :
    List change_request_t → List change_request_t
  | [] => [new_request]
  | next :: rest =>
    if next.alarm_id ≥ new_request.alarm_id then new_request :: next :: rest
    else next :: insert_change_request new_request rest

/-! ## The two commands of `main` -/

/-- The scan of the `Start_Alarm` branch: the first thread node that serves the group and
has `alarm_count < 2` gets the queue node in front of its queue and its count incremented.
The result is `none` when the loop ends with `thread_created == 0`. -/
def assign_existing (group_id : Int) (new_queue_node : alarm_queue_node_t) :
    List thread_node_t → Option (Nat × List thread_node_t)
  | [] => none
  | current :: rest =>
    if current.group_id = group_id ∧ current.alarm_count < 2 then
      some (current.thread_id,
        { current with
          alarm_queue := new_queue_node :: current.alarm_queue
          alarm_count := current.alarm_count + 1 } :: rest)
    else
      match assign_existing group_id new_queue_node rest with
      | none => none
      | some (tid, rest') => some (tid, current :: rest')

/-- The `Start_Alarm` branch of `main`, run at time `now`. The queue node is `malloc`ed
and only its `alarm` and `next` fields are written: `junk_reassigned` and
`junk_message_changed` stand for what the two flags hold. The alarm is linked into the
Registry before the scan and gets its `display_thread_id` after it; the model builds the
finished record and inserts it, the place of insertion depending on the id only. -/
def Start_Alarm (alarm_id group_id seconds : Int) (message : String) (now : Int)
    (junk_reassigned junk_message_changed : Int) (s : State) : State × List Event :=
  let new_alarm : alarm_t :=
    { id := alarm_id, group_id := group_id, seconds := seconds, time := now + seconds,
      message := message, display_thread_id := 0 }
  let new_queue_node : alarm_queue_node_t :=
    { alarm := ⟨new_alarm.id⟩, reassigned := junk_reassigned,
      message_changed := junk_message_changed }
  match assign_existing group_id new_queue_node s.display_alarm_thread_list with
  | some (tid, threads) =>
    ({ s with
        alarm_list := alarm_insert { new_alarm with display_thread_id := tid } s.alarm_list
        display_alarm_thread_list := threads },
      [Event.worker_assigned_existing tid alarm_id, Event.alarm_inserted alarm_id])
  | none =>
    let new_thread := s.threads_created + 1
    ({ s with
        alarm_list :=
          alarm_insert { new_alarm with display_thread_id := new_thread } s.alarm_list
        threads_created := s.threads_created + 1
        display_alarm_thread_list :=
          add_thread_node s.display_alarm_thread_list new_thread group_id },
      [Event.worker_created new_thread alarm_id, Event.alarm_inserted alarm_id])

/-- The request record the `Change_Alarm` branch of `main` fills in at time `now`. -/
def new_request (alarm_id group_id seconds : Int) (message : String) (now : Int) :
    change_request_t :=
  { alarm_id := alarm_id, new_group_id := group_id, new_seconds := seconds,
    new_time := now + seconds, new_message := message }

/-- The `Change_Alarm` branch of `main`, run at time `now`. -/
def Change_Alarm (alarm_id group_id seconds : Int) (message : String) (now : Int)
    (s : State) : State × List Event :=
  ({ s with
      change_request_list :=
        insert_change_request (new_request alarm_id group_id seconds message now)
          s.change_request_list },
    [Event.change_request_inserted alarm_id])

/-! ## The alarm monitor -/

/-- The value of `expired` after lines 204-224 for the head alarm: when its time is in the
future the loop stays in `pthread_cond_timedwait` until the wait times out and sets
`expired`, otherwise it sets `expired` at once. Both branches set it, so the clock decides
how long the iteration waits and not whether an alarm is removed. The wait itself, during
which the mutex is released, is in `expire_step_waited`. -/
def head_expired (now : Int) (head : alarm_t) : Bool :=
  if head.time > now then true else true

/-- The first half of an iteration of `alarm_monitor_thread_function`, started at time
`now`, as one atomic step: with a non-empty Registry the head alarm is unlinked, the
thread recorded in it is signalled with `reassigned = -1`, and the removal is printed.
This is the iteration during whose timed wait no alarm is linked in front of the list
(`expire_step_eq_waited`); the source takes the head again after the wait, see
`expire_step_waited`. -/
def expire_step (now : Int) (s : State) : State × List Event :=
  match s.alarm_list with
  | [] => (s, [])
  | expired_alarm :: rest =>
    if head_expired now expired_alarm then
      ({ s with
          alarm_list := rest
          display_alarm_thread_list :=
            signal_display_thread expired_alarm.display_thread_id expired_alarm.id (-1) 0
              s.display_alarm_thread_list },
        [Event.alarm_removed_expired expired_alarm.id])
    else (s, [])

/-- The block run when the group of the alarm has changed (`alarm` already holds the new
group): the thread recorded in the alarm is signalled with `reassigned = -1`,
`find_or_create_thread_for_group` gives the thread for the new group, which is recorded in
the alarm and signalled with `reassigned = 1`. -/
def reassign_alarm (alarm : alarm_t) (s : State) : alarm_t × State :=
  let s1 : State :=
    { s with
      display_alarm_thread_list :=
        signal_display_thread alarm.display_thread_id alarm.id (-1) 0
          s.display_alarm_thread_list }
  let found := find_or_create_thread_for_group alarm.group_id s1
  let new_thread_id := found.1
  ({ alarm with display_thread_id := new_thread_id },
    { found.2 with
      display_alarm_thread_list :=
        signal_display_thread new_thread_id alarm.id 1 0 found.2.display_alarm_thread_list })

/-- The body run for the alarm the search loop stops at: the alarm takes the group, time
and message of the request; when the group differs the alarm is reassigned; when the
message differs (`strncmp` on the two buffers) the thread recorded in the alarm is
signalled with `message_changed`. The result is the alarm as it is left and the state
(Directory and thread counter) after the signals. -/
def change_alarm (current_request : change_request_t) (alarm : alarm_t) (s : State) :
    alarm_t × State :=
  let old_group_id := alarm.group_id
  let message_changed : Int := if alarm.message ≠ current_request.new_message then 1 else 0
  let alarm1 : alarm_t :=
    { alarm with
      group_id := current_request.new_group_id
      time := current_request.new_time
      message := current_request.new_message }
  let moved : alarm_t × State :=
    if old_group_id ≠ alarm1.group_id then reassign_alarm alarm1 s else (alarm1, s)
  if message_changed ≠ 0 then
    (moved.1,
      { moved.2 with
        display_alarm_thread_list :=
          signal_display_thread moved.1.display_thread_id moved.1.id 0 message_changed
            moved.2.display_alarm_thread_list })
  else moved

/-- The search loop over `alarm_list` for one change request: `visited` holds the alarms
already passed, in list order. The first alarm with the id of the request is changed in
place; when the loop reaches the end of the list the request is reported invalid. The
state is the one after the writes of lines 270-296; the line is the one the `printf` of
line 299 or 309 is to print. Both calls hand a `time_t` to `%s`: here the call is taken as
returning, `change_loop_as_written` has the thread fault at it. -/
def search_alarm (current_request : change_request_t) (s : State) :
    List alarm_t → List alarm_t → State × List Event
  | _, [] => (s, [Event.change_invalid current_request.alarm_id])
  | visited, alarm :: rest =>
    if alarm.id = current_request.alarm_id then
      let changed := change_alarm current_request alarm s
      ({ changed.2 with alarm_list := visited ++ changed.1 :: rest },
        [Event.change_applied changed.1.id])
    else search_alarm current_request s (visited ++ [alarm]) rest

/-- One request of the change loop, applied to the Registry of the state. -/
def apply_change_request (current_request : change_request_t) (s : State) :
    State × List Event :=
  search_alarm current_request s [] s.alarm_list

/-- The change loop of the monitor over the requests still linked: each request is applied
and unlinked (`prev_request` stays `NULL`, so the list head moves to the next request). -/
def process_change_requests : List change_request_t → State → State × List Event
  | [], s => ({ s with change_request_list := [] }, [])
  | current_request :: rest, s =>
    let applied := apply_change_request current_request s
    let later := process_change_requests rest { applied.1 with change_request_list := rest }
    (later.1, applied.2 ++ later.2)

/-- One iteration of the loop of `alarm_monitor_thread_function`, started at time `now`. -/
def alarm_monitor_pass (now : Int) (s : State) : State × List Event :=
  let expiry := expire_step now s
  let changes := process_change_requests expiry.1.change_request_list expiry.1
  (changes.1, expiry.2 ++ changes.2)

/-! ## The display workers -/

/-- The queue loop of `display_alarm_thread_function` for the thread `display_thread_id`:
the queue as the loop leaves it and the lines printed, in order. -/
def render_queue (display_thread_id : Nat) :
    List alarm_queue_node_t → List alarm_queue_node_t × List Event
  | [] => ([], [])
  | queue_node :: rest =>
    let later := render_queue display_thread_id rest
    if queue_node.reassigned = 1 then
      ({ queue_node with reassigned := 0 } :: later.1,
        Event.worker_takeover display_thread_id queue_node.alarm.id :: later.2)
    else if queue_node.reassigned = -1 then
      (later.1, Event.worker_stop display_thread_id queue_node.alarm.id :: later.2)
    else if queue_node.message_changed ≠ 0 then
      ({ queue_node with message_changed := 0 } :: later.1,
        Event.worker_message_changed display_thread_id queue_node.alarm.id :: later.2)
    else
      (queue_node :: later.1,
        Event.worker_render display_thread_id queue_node.alarm.id :: later.2)

/-- One iteration of the loop of `display_alarm_thread_function` on the thread node of the
worker: the queue loop, then the exit line when the queue is left empty. The source starts
the thread with a pointer to the group number as `arg` and reads it as its `thread_info`;
the model gives the worker the Directory node that carries its thread id. -/
def display_alarm_pass (thread_info : thread_node_t) : thread_node_t × List Event :=
  let pass := render_queue thread_info.thread_id thread_info.alarm_queue
  ({ thread_info with alarm_queue := pass.1 },
    pass.2 ++ if pass.1 = [] then [Event.worker_exit thread_info.thread_id] else [])

/-- The pass of the worker at position `i` of the Directory (position 0 is the list
head); nothing happens when there is no such position. -/
def display_pass_at : Nat → List thread_node_t → List thread_node_t × List Event
  | _, [] => ([], [])
  | 0, thread_info :: rest =>
    ((display_alarm_pass thread_info).1 :: rest, (display_alarm_pass thread_info).2)
  | i + 1, thread_info :: rest =>
    (thread_info :: (display_pass_at i rest).1, (display_pass_at i rest).2)

/-- One worker pass as a step of the whole state, the worker being given its Directory
node. In the source no display thread is handed that node (see `display_alarm_pass`), so
this step is one the program as written does not take; `Reachable_as_written` has the
runs without it. -/
def display_pass (i : Nat) (s : State) : State × List Event :=
  ({ s with display_alarm_thread_list := (display_pass_at i s.display_alarm_thread_list).1 },
    (display_pass_at i s.display_alarm_thread_list).2)

/-! ## Runs of the system -/

/-- The atomic steps of a run: the two commands of `main`, an iteration of the monitor, an
iteration of a display worker. A worker iteration may come at any time (a condition wait
can return without a signal); iterations of a worker that has printed its exit line are
steps too, which only adds runs. -/
inductive Step : State → State → Prop where
  | start_alarm (alarm_id group_id seconds : Int) (message : String) (now : Int)
      (junk_reassigned junk_message_changed : Int) (s : State) :
      Step s (Start_Alarm alarm_id group_id seconds message now junk_reassigned
        junk_message_changed s).1
  | change_alarm (alarm_id group_id seconds : Int) (message : String) (now : Int)
      (s : State) : Step s (Change_Alarm alarm_id group_id seconds message now s).1
  | monitor (now : Int) (s : State) : Step s (alarm_monitor_pass now s).1
  | display (i : Nat) (s : State) : Step s (display_pass i s).1

/-- The states a run can be in, from the empty initial state. -/
inductive Reachable : State → Prop where
  | init : Reachable State.init
  | step {s t : State} : Reachable s → Step s t → Reachable t

/-! ## Predicates and scenarios used by the properties -/

/-- Every worker's queue is no longer than its load counter, and the counter is at most
2. -/
def within_count (threads : List thread_node_t) : Prop :=
  ∀ t ∈ threads, (t.alarm_queue.length : Int) ≤ t.alarm_count ∧ t.alarm_count ≤ 2

/-- The state after three alarms of group 1 (ids 3, 1, 2) typed at time 0, a monitor
iteration started at time 1 (it waits for the expiry of the head alarm 1 at time 10 and
removes it) and an iteration of the worker, which drops the alarm. -/
def capacity_scenario : State :=
  (display_pass 0
    (alarm_monitor_pass 1
      (Start_Alarm 2 1 10 "c" 0 0 0
        (Start_Alarm 1 1 10 "b" 0 0 0
          (Start_Alarm 3 1 10 "a" 0 0 0 State.init).1).1).1).1).1

/-- The arguments of one `Start_Alarm` command, with the time it is typed at and the
contents of the `malloc`ed flags. -/
structure Submission where
  alarm_id : Int
  group_id : Int
  seconds : Int
  message : String
  now : Int
  junk_reassigned : Int
  junk_message_changed : Int
  deriving DecidableEq, Repr

/-- The state after one `Start_Alarm` command. -/
def submit (s : State) (x : Submission) : State :=
  (Start_Alarm x.alarm_id x.group_id x.seconds x.message x.now x.junk_reassigned
    x.junk_message_changed s).1

/-- The state after a sequence of `Start_Alarm` commands, first command first. -/
def submit_all (xs : List Submission) (s : State) : State :=
  xs.foldl submit s

/-- The ids held by a Registry list, in list order. -/
def registry_ids (l : List alarm_t) : List Int :=
  l.map (fun a => a.id)

/-- Two alarms typed at time 0 (id 1 expiring at time 5, id 2 expiring at time 100), then a
change request for alarm 2 with duration 10 typed at time 3. -/
def change_scenario : State :=
  (Change_Alarm 2 1 10 "b" 3
    (Start_Alarm 2 1 100 "b" 0 0 0 (Start_Alarm 1 1 5 "a" 0 0 0 State.init).1).1).1

/-- Two alarms of group 1 typed at time 0 (alarm 1 starts worker 1, alarm 2 is queued at
worker 1), then a change request typed at time 5 that moves alarm 2 to group 2. -/
def group_change_scenario : State :=
  (Change_Alarm 2 2 50 "m" 5
    (Start_Alarm 2 1 100 "m" 0 0 0 (Start_Alarm 1 1 10 "a" 0 0 0 State.init).1).1).1

/-- Alarm 1 of group 1 and alarm 2 of group 2 typed at time 0 (each starts a worker), then
a change request typed at time 5 that keeps alarm 2 in group 2 and gives it the message
"new". -/
def message_change_scenario : State :=
  (Change_Alarm 2 2 50 "new" 5
    (Start_Alarm 2 2 100 "old" 0 0 0 (Start_Alarm 1 1 10 "a" 0 0 0 State.init).1).1).1

/-- The line a queue entry is said to get in a render pass, chosen by its flags. This
follows the wording of the Render state and is compared with `render_queue`. -/
def spec_entry_event (display_thread_id : Nat) (n : alarm_queue_node_t) : Event :=
  if n.reassigned = 1 then Event.worker_takeover display_thread_id n.alarm.id
  else if n.reassigned = -1 then Event.worker_stop display_thread_id n.alarm.id
  else if n.message_changed ≠ 0 then Event.worker_message_changed display_thread_id n.alarm.id
  else Event.worker_render display_thread_id n.alarm.id

/-- The entry as a render pass is said to leave it when it stays in the queue: the flag
that selected a take-over or a changed-message line is reset to 0, nothing else changes. -/
def spec_entry_after (n : alarm_queue_node_t) : alarm_queue_node_t :=
  if n.reassigned = 1 then { n with reassigned := 0 }
  else if n.reassigned ≠ -1 ∧ n.message_changed ≠ 0 then { n with message_changed := 0 }
  else n

/-- Two alarms of group 1 typed at time 0 (alarm 1 starts worker 1, alarm 2 is queued at
worker 1). The monitor iteration started at time 1 removes alarm 1 at time 10 and signals
worker 1, whose iteration prints alarm 2. The next monitor iteration removes alarm 2 at
time 20 and flags its queue node; the state is the one the worker finds when it wakes. -/
def exit_scenario : State :=
  (alarm_monitor_pass 11
    (display_pass 0
      (alarm_monitor_pass 1
        (Start_Alarm 2 1 20 "b" 0 0 0
          (Start_Alarm 1 1 10 "a" 0 0 0 State.init).1).1).1).1).1

/-- The alarm a change request for id `i` resolves to: the first alarm of the Registry list
with that id, the one the search loop of the monitor stops at. -/
def first_alarm (i : Int) (l : List alarm_t) : Option alarm_t :=
  l.find? (fun a => decide (a.id = i))

/-- One alarm (id 1, typed at time 0, expiring at time 10) and two change requests for it,
typed at times 3 and 4. -/
def single_alarm_scenario : State :=
  (Change_Alarm 1 3 30 "r2" 4
    (Change_Alarm 1 2 20 "r1" 3 (Start_Alarm 1 1 10 "a" 0 0 0 State.init).1).1).1

/-- Two alarms typed at time 0 (id 1 expiring at time 5, id 2 of group 1 expiring at time
100); the change-request queue is empty. -/
def two_alarm_scenario : State :=
  (Start_Alarm 2 1 100 "b" 0 0 0 (Start_Alarm 1 1 5 "a" 0 0 0 State.init).1).1

/-! ## The program as written

Three things the definitions above take in their intended sense are spelled out here.

* Four `printf` calls hand a `time_t` (`alarm->time`, `new_time`) to a `%s` conversion:
  lines 299-300 and 309-310 in the change loop of the monitor, lines 559-560 and 604-605
  in `main`. The thread reads a string at the address given by the time value and the
  process dies there. The definitions above give the line as printed and go on;
  `Outcome` and the `_as_written` definitions stop at the call.
* `pthread_cond_timedwait` releases `alarm_list_mutex`, and the monitor takes the head of
  `alarm_list` again when the wait is over. `expire_step` is the case in which the list is
  the same before and after the wait; `expire_step_waited` takes both states.
* Every display thread is started with a pointer to a `malloc`ed `int` as `arg`, which
  line 341 reads as its `thread_node_t`: no worker iteration of the program touches a
  queue of the Directory. `display_pass` runs the worker loop on the Directory node all
  the same; `Reachable_as_written` leaves worker iterations out.
-/

/-- How the run of a thread function ends: it returns, or it faults at a `printf` that is
handed a `time_t` for `%s`. Both carry the state at that moment and the lines printed. -/
inductive Outcome where
  | returned (s : State) (lines : List Event)
  | faulted (s : State) (lines : List Event)
  deriving DecidableEq, Repr

/-- The change loop of the monitor as written. With no request linked the loop body is not
entered. Otherwise the search loop runs for the request at the head of the queue and does
its writes (lines 270-296, the state of `apply_change_request`); then the `printf` of line
299 (alarm found) or of line 309 (no alarm found) is handed a `time_t` for `%s` and the
thread faults, before the request is unlinked at lines 317-326 and with no line printed. -/
def change_loop_as_written (s : State) : Outcome :=
  match s.change_request_list with
  | [] => Outcome.returned s []
  | current_request :: _ => Outcome.faulted (apply_change_request current_request s).1 []

/-- One iteration of the monitor loop as written, with no alarm inserted during the timed
wait: the expiry step (its `printf` at line 239 formats the time first and returns), then
the change loop as written. -/
def alarm_monitor_pass_as_written (now : Int) (s : State) : Outcome :=
  match change_loop_as_written (expire_step now s).1 with
  | Outcome.returned t lines => Outcome.returned t ((expire_step now s).2 ++ lines)
  | Outcome.faulted t lines => Outcome.faulted t ((expire_step now s).2 ++ lines)

/-- Lines 226-244 on the list as it is when they run: the head alarm is unlinked, the
thread recorded in it is signalled with `reassigned = -1`, the removal is printed. -/
def remove_expired_head (s : State) : State × List Event :=
  match s.alarm_list with
  | [] => (s, [])
  | expired_alarm :: rest =>
    ({ s with
        alarm_list := rest
        display_alarm_thread_list :=
          signal_display_thread expired_alarm.display_thread_id expired_alarm.id (-1) 0
            s.display_alarm_thread_list },
      [Event.alarm_removed_expired expired_alarm.id])

/-- The first half of a monitor iteration with the timed wait spelled out. `s` is the state
the iteration starts in at time `now`; `waited` is the state when the wait is over (`main`
can run commands while the wait has released the mutex). With an empty list nothing is
done. When the time of the head is after `now` the iteration waits with that time as its
deadline and then removes the head of the list as it is in `waited`. Otherwise the head of
the list of `s` is removed at once, the mutex being held throughout. -/
def expire_step_waited (now : Int) (s waited : State) : State × List Event :=
  match s.alarm_list with
  | [] => (s, [])
  | head :: _ =>
    if head.time > now then remove_expired_head waited else remove_expired_head s

/-- One alarm (id 2, typed at time 0, expiring at time 100) and one change request for the
id 7, which no alarm has. -/
def invalid_request_scenario : State :=
  (Change_Alarm 7 1 10 "x" 4 (Start_Alarm 2 1 100 "b" 0 0 0 State.init).1).1

/-- Two alarms typed at time 0 (id 1 of group 1 expiring at time 5, id 2 of group 2
expiring at time 100) and two change requests for alarm 2 that keep its group, typed at
times 3 and 4. -/
def two_request_scenario : State :=
  (Change_Alarm 2 2 30 "r2" 4
    (Change_Alarm 2 2 20 "r1" 3
      (Start_Alarm 2 2 100 "b" 0 0 0 (Start_Alarm 1 1 5 "a" 0 0 0 State.init).1).1).1).1

/-- One alarm (id 2, typed at time 0, expiring at time 60) is in the Registry when a
monitor iteration starts at time 1. -/
def waiting_scenario : State :=
  (Start_Alarm 2 1 60 "b" 0 0 0 State.init).1

theorem alarm_insert_split (alarm : alarm_t) (l : List alarm_t) :
    ∃ l1 l2, l = l1 ++ l2 ∧ alarm_insert alarm l = l1 ++ alarm :: l2 ∧
      (∀ x ∈ l1, x.id < alarm.id) ∧ (∀ x, l2.head? = some x → alarm.id ≤ x.id) := by
  induction l with
  | nil => exact ⟨[], [], rfl, rfl, by simp, by simp⟩
  | cons next rest ih =>
    by_cases h : next.id ≥ alarm.id
    · refine ⟨[], next :: rest, rfl, by simp [alarm_insert, h], by simp, ?_⟩
      intro x hx
      simp at hx
      subst hx
      exact h
    · obtain ⟨l1, l2, h1, h2, h3, h4⟩ := ih
      refine ⟨next :: l1, l2, by simp [h1], by simp [alarm_insert, h, h2], ?_, h4⟩
      intro x hx
      rcases List.mem_cons.1 hx with rfl | hx
      · omega
      · exact h3 x hx

theorem alarm_insert_perm (alarm : alarm_t) (l : List alarm_t) :
    (alarm_insert alarm l).Perm (alarm :: l) := by
  obtain ⟨l1, l2, h1, h2, -, -⟩ := alarm_insert_split alarm l
  rw [h2, h1]
  exact List.perm_middle

/-- C5: on a Registry list sorted by ascending id, `alarm_insert` gives a list that is
again sorted by ascending id, is a permutation of the new alarm and the old list, and is
the old list with the new alarm put in at one place (the old alarms keep their order). -/
theorem alarm_insert_sorted (alarm : alarm_t) (l : List alarm_t)
    (h : l.Pairwise (fun x y => x.id ≤ y.id)) :
    (alarm_insert alarm l).Pairwise (fun x y => x.id ≤ y.id) ∧
    (alarm_insert alarm l).Perm (alarm :: l) ∧
    ∃ l1 l2, l = l1 ++ l2 ∧ alarm_insert alarm l = l1 ++ alarm :: l2 := by
  obtain ⟨l1, l2, h1, h2, h3, h4⟩ := alarm_insert_split alarm l
  refine ⟨?_, alarm_insert_perm alarm l, l1, l2, h1, h2⟩
  rw [h2]
  rw [h1, List.pairwise_append] at h
  obtain ⟨p1, p2, p3⟩ := h
  rw [List.pairwise_append]
  refine ⟨p1, ?_, ?_⟩
  · rw [List.pairwise_cons]
    refine ⟨?_, p2⟩
    intro y hy
    cases l2 with
    | nil => simp at hy
    | cons z zs =>
      have hz := h4 z rfl
      rcases List.mem_cons.1 hy with rfl | hy
      · exact hz
      · have := (List.pairwise_cons.1 p2).1 y hy
        omega
  · intro x hx y hy
    rcases List.mem_cons.1 hy with rfl | hy
    · exact le_of_lt (h3 x hx)
    · exact p3 x hx y hy

theorem alarm_insert_sorted_witness :
    ([⟨1, 0, 5, 5, "a", 1⟩, ⟨4, 0, 5, 5, "b", 1⟩] : List alarm_t).Pairwise
        (fun x y => x.id ≤ y.id) ∧
    alarm_insert ⟨3, 0, 5, 5, "c", 1⟩ [⟨1, 0, 5, 5, "a", 1⟩, ⟨4, 0, 5, 5, "b", 1⟩] =
      [⟨1, 0, 5, 5, "a", 1⟩, ⟨3, 0, 5, 5, "c", 1⟩, ⟨4, 0, 5, 5, "b", 1⟩] ∧
    (alarm_insert ⟨3, 0, 5, 5, "c", 1⟩
        [⟨1, 0, 5, 5, "a", 1⟩, ⟨4, 0, 5, 5, "b", 1⟩]).Pairwise (fun x y => x.id ≤ y.id) :=
  ⟨by decide, by decide,
    (alarm_insert_sorted ⟨3, 0, 5, 5, "c", 1⟩ [⟨1, 0, 5, 5, "a", 1⟩, ⟨4, 0, 5, 5, "b", 1⟩]
      (by decide)).1⟩

/-- C1, the new-worker path: an alarm submitted to the empty system is recorded as assigned
to the new thread 1, but the node of that thread has an empty queue and a zero counter, and
`find_thread_id_by_alarm_id` finds no owner (returns 0). -/
theorem Start_Alarm_new_worker_queue_empty (alarm_id group_id seconds : Int) (message : String)
    (now junk_reassigned junk_message_changed : Int) :
    (Start_Alarm alarm_id group_id seconds message now junk_reassigned junk_message_changed
        State.init).1.alarm_list =
      [{ id := alarm_id, group_id := group_id, seconds := seconds, time := now + seconds,
         message := message, display_thread_id := 1 }] ∧
    (Start_Alarm alarm_id group_id seconds message now junk_reassigned junk_message_changed
        State.init).1.display_alarm_thread_list =
      [{ thread_id := 1, group_id := group_id, alarm_count := 0, alarm_queue := [] }] ∧
    find_thread_id_by_alarm_id alarm_id
      (Start_Alarm alarm_id group_id seconds message now junk_reassigned junk_message_changed
        State.init).1.display_alarm_thread_list = 0 := by
  simp [Start_Alarm, State.init, assign_existing, alarm_insert, add_thread_node,
    find_thread_id_by_alarm_id]

/-- C3: three alarms of one group submitted to the empty system leave one worker in the
Directory; its queue holds the third and the second alarm, the first alarm is in no queue. -/
theorem three_alarms_one_worker (group_id : Int) (id1 id2 id3 sec1 sec2 sec3 : Int)
    (m1 m2 m3 : String) (now1 now2 now3 r1 c1 r2 c2 r3 c3 : Int) :
    (Start_Alarm id3 group_id sec3 m3 now3 r3 c3
      (Start_Alarm id2 group_id sec2 m2 now2 r2 c2
        (Start_Alarm id1 group_id sec1 m1 now1 r1 c1 State.init).1).1).1.display_alarm_thread_list =
      [{ thread_id := 1, group_id := group_id, alarm_count := 2,
         alarm_queue := [{ alarm := ⟨id3⟩, reassigned := r3, message_changed := c3 },
                         { alarm := ⟨id2⟩, reassigned := r2, message_changed := c2 }] }] := by
  simp [Start_Alarm, State.init, assign_existing, add_thread_node]

/-! ## Queue length and the load counter -/

theorem set_flags_length (alarm_id reassigned message_changed : Int)
    (q : List alarm_queue_node_t) :
    (set_flags alarm_id reassigned message_changed q).length = q.length := by
  induction q with
  | nil => rfl
  | cons n rest ih =>
    by_cases h : n.alarm.id = alarm_id <;> simp [set_flags, h, ih]

theorem signal_within_count (thread_id : Nat) (alarm_id reassigned message_changed : Int)
    (threads : List thread_node_t) (h : within_count threads) :
    within_count (signal_display_thread thread_id alarm_id reassigned message_changed threads) := by
  induction threads with
  | nil => simpa [signal_display_thread] using h
  | cons current rest ih =>
    have hc := h current (List.mem_cons_self _ _)
    have hr : within_count rest := fun t ht => h t (List.mem_cons_of_mem _ ht)
    by_cases e : current.thread_id = thread_id
    · intro t ht
      simp only [signal_display_thread, e, if_true, List.mem_cons] at ht
      rcases ht with rfl | ht
      · simpa [set_flags_length] using hc
      · exact hr t ht
    · intro t ht
      simp only [signal_display_thread, e, if_false, List.mem_cons] at ht
      rcases ht with rfl | ht
      · exact hc
      · exact ih hr t ht

theorem add_thread_node_within_count (threads : List thread_node_t) (tid : Nat) (group_id : Int)
    (h : within_count threads) : within_count (add_thread_node threads tid group_id) := by
  intro t ht
  simp only [add_thread_node, List.mem_cons] at ht
  rcases ht with rfl | ht
  · simp
  · exact h t ht

theorem find_or_create_within_count (group_id : Int) (s : State)
    (h : within_count s.display_alarm_thread_list) :
    within_count (find_or_create_thread_for_group group_id s).2.display_alarm_thread_list := by
  unfold find_or_create_thread_for_group
  by_cases e : find_thread_for_group group_id s.display_alarm_thread_list = 0
  · simpa [e] using add_thread_node_within_count _ _ _ h
  · simpa [e] using h

theorem assign_existing_within_count (group_id : Int) (node : alarm_queue_node_t)
    (threads threads' : List thread_node_t) (tid : Nat) (h : within_count threads)
    (e : assign_existing group_id node threads = some (tid, threads')) :
    within_count threads' := by
  induction threads generalizing threads' tid with
  | nil => simp [assign_existing] at e
  | cons current rest ih =>
    have hc := h current (List.mem_cons_self _ _)
    have hr : within_count rest := fun t ht => h t (List.mem_cons_of_mem _ ht)
    by_cases c : current.group_id = group_id ∧ current.alarm_count < 2
    · simp only [assign_existing, c, and_self, if_true, Option.some.injEq, Prod.mk.injEq] at e
      obtain ⟨-, rfl⟩ := e
      intro t ht
      rcases List.mem_cons.1 ht with rfl | ht
      · have := c.2
        simp only [List.length_cons]
        push_cast
        omega
      · exact hr t ht
    · simp only [assign_existing, c, if_false] at e
      cases h' : assign_existing group_id node rest with
      | none => simp [h'] at e
      | some p =>
        obtain ⟨tid', rest'⟩ := p
        simp only [h', Option.some.injEq, Prod.mk.injEq] at e
        obtain ⟨-, rfl⟩ := e
        intro t ht
        rcases List.mem_cons.1 ht with rfl | ht
        · exact hc
        · exact ih rest' tid' hr h' t ht

theorem Start_Alarm_within_count (alarm_id group_id seconds : Int) (message : String)
    (now junk_reassigned junk_message_changed : Int) (s : State)
    (h : within_count s.display_alarm_thread_list) :
    within_count (Start_Alarm alarm_id group_id seconds message now junk_reassigned
      junk_message_changed s).1.display_alarm_thread_list := by
  unfold Start_Alarm
  cases e : assign_existing group_id
      { alarm := ⟨alarm_id⟩, reassigned := junk_reassigned,
        message_changed := junk_message_changed } s.display_alarm_thread_list with
  | none => simpa [e] using add_thread_node_within_count _ _ _ h
  | some p =>
    obtain ⟨tid, threads⟩ := p
    simpa [e] using assign_existing_within_count _ _ _ _ _ h e

theorem expire_step_within_count (now : Int) (s : State)
    (h : within_count s.display_alarm_thread_list) :
    within_count (expire_step now s).1.display_alarm_thread_list := by
  unfold expire_step
  cases e : s.alarm_list with
  | nil => simpa using h
  | cons a rest =>
    by_cases x : head_expired now a = true
    · simpa [x] using signal_within_count _ _ _ _ _ h
    · simpa [x] using h

theorem reassign_alarm_within_count (alarm : alarm_t) (s : State)
    (h : within_count s.display_alarm_thread_list) :
    within_count (reassign_alarm alarm s).2.display_alarm_thread_list := by
  unfold reassign_alarm
  apply signal_within_count
  apply find_or_create_within_count
  exact signal_within_count _ _ _ _ _ h

theorem change_alarm_within_count (r : change_request_t) (alarm : alarm_t) (s : State)
    (h : within_count s.display_alarm_thread_list) :
    within_count (change_alarm r alarm s).2.display_alarm_thread_list := by
  have hm : within_count
      (if alarm.group_id ≠ r.new_group_id then
        reassign_alarm { alarm with group_id := r.new_group_id, time := r.new_time,
                                    message := r.new_message } s
       else ({ alarm with group_id := r.new_group_id, time := r.new_time,
                          message := r.new_message }, s)).2.display_alarm_thread_list := by
    split
    · exact reassign_alarm_within_count _ _ h
    · exact h
  unfold change_alarm
  dsimp only
  split
  · exact signal_within_count _ _ _ _ _ hm
  · exact hm

theorem search_alarm_within_count (r : change_request_t) (s : State)
    (h : within_count s.display_alarm_thread_list) (visited rest : List alarm_t) :
    within_count (search_alarm r s visited rest).1.display_alarm_thread_list := by
  induction rest generalizing visited with
  | nil => simpa [search_alarm] using h
  | cons alarm rest ih =>
    by_cases e : alarm.id = r.alarm_id
    · simpa [search_alarm, e] using change_alarm_within_count r alarm s h
    · simpa [search_alarm, e] using ih (visited ++ [alarm])

theorem process_change_requests_within_count (l : List change_request_t) (s : State)
    (h : within_count s.display_alarm_thread_list) :
    within_count (process_change_requests l s).1.display_alarm_thread_list := by
  induction l generalizing s with
  | nil => simpa [process_change_requests] using h
  | cons r rest ih =>
    simp only [process_change_requests]
    apply ih
    exact search_alarm_within_count r s h [] s.alarm_list

theorem alarm_monitor_pass_within_count (now : Int) (s : State)
    (h : within_count s.display_alarm_thread_list) :
    within_count (alarm_monitor_pass now s).1.display_alarm_thread_list := by
  unfold alarm_monitor_pass
  exact process_change_requests_within_count _ _ (expire_step_within_count now s h)

theorem render_queue_length (tid : Nat) (q : List alarm_queue_node_t) :
    (render_queue tid q).1.length ≤ q.length := by
  induction q with
  | nil => simp [render_queue]
  | cons n rest ih =>
    simp only [render_queue]
    split
    · simpa using ih
    · split
      · simp only [List.length_cons]
        omega
      · split <;> simpa using ih

theorem display_pass_at_within_count (i : Nat) (threads : List thread_node_t)
    (h : within_count threads) : within_count (display_pass_at i threads).1 := by
  induction threads generalizing i with
  | nil => cases i <;> simpa [display_pass_at] using h
  | cons t rest ih =>
    have hc := h t (List.mem_cons_self _ _)
    have hr : within_count rest := fun u hu => h u (List.mem_cons_of_mem _ hu)
    cases i with
    | zero =>
      intro u hu
      simp only [display_pass_at, List.mem_cons] at hu
      rcases hu with rfl | hu
      · have := render_queue_length t.thread_id t.alarm_queue
        simp only [display_alarm_pass]
        omega
      · exact hr u hu
    | succ j =>
      intro u hu
      simp only [display_pass_at, List.mem_cons] at hu
      rcases hu with rfl | hu
      · exact hc
      · exact ih j hr u hu

theorem reachable_within_count (s : State) (h : Reachable s) :
    within_count s.display_alarm_thread_list := by
  induction h with
  | init => intro t ht; simp [State.init] at ht
  | step _ st ih =>
    cases st with
    | start_alarm => exact Start_Alarm_within_count _ _ _ _ _ _ _ _ ih
    | change_alarm => simpa [Change_Alarm] using ih
    | monitor now => exact alarm_monitor_pass_within_count now _ ih
    | display i => simpa [display_pass] using display_pass_at_within_count i _ ih

/-- C2: in every state reachable by `Start_Alarm`, `Change_Alarm`, monitor iterations and
worker iterations, every worker of the Directory has at most 2 queue nodes. -/
theorem worker_queue_length_le_two (s : State) (h : Reachable s) :
    ∀ t ∈ s.display_alarm_thread_list, t.alarm_queue.length ≤ 2 := by
  intro t ht
  have := reachable_within_count s h t ht
  omega

theorem worker_queue_length_le_two_witness :
    Reachable (Start_Alarm 2 1 10 "b" 0 0 0 (Start_Alarm 1 1 10 "a" 0 0 0 State.init).1).1 ∧
    ∀ t ∈ (Start_Alarm 2 1 10 "b" 0 0 0
        (Start_Alarm 1 1 10 "a" 0 0 0 State.init).1).1.display_alarm_thread_list,
      t.alarm_queue.length ≤ 2 :=
  ⟨Reachable.step (Reachable.step Reachable.init (Step.start_alarm 1 1 10 "a" 0 0 0 _))
      (Step.start_alarm 2 1 10 "b" 0 0 0 _),
    worker_queue_length_le_two _
      (Reachable.step (Reachable.step Reachable.init (Step.start_alarm 1 1 10 "a" 0 0 0 _))
        (Step.start_alarm 2 1 10 "b" 0 0 0 _))⟩

/-! ## The choice between an existing and a new worker -/

theorem assign_existing_eq_none (group_id : Int) (node : alarm_queue_node_t)
    (threads : List thread_node_t) :
    assign_existing group_id node threads = none ↔
      ¬ ∃ t ∈ threads, t.group_id = group_id ∧ t.alarm_count < 2 := by
  induction threads with
  | nil => simp [assign_existing]
  | cons current rest ih =>
    by_cases c : current.group_id = group_id ∧ current.alarm_count < 2
    · simp only [assign_existing, c, and_self, if_true]
      constructor
      · intro h; cases h
      · intro h; exact absurd ⟨current, List.mem_cons_self _ _, c⟩ h
    · simp only [assign_existing, c, if_false]
      cases h' : assign_existing group_id node rest with
      | none =>
        simp only [true_iff]
        rintro ⟨t, ht, hc⟩
        rcases List.mem_cons.1 ht with rfl | ht
        · exact c hc
        · exact (ih.1 h') ⟨t, ht, hc⟩
      | some p =>
        simp only [false_iff, not_not, reduceCtorEq]
        have : ¬ assign_existing group_id node rest = none := by simp [h']
        rw [ih, not_not] at this
        obtain ⟨t, ht, hc⟩ := this
        exact ⟨t, List.mem_cons_of_mem _ ht, hc⟩

theorem assign_existing_eq_some (group_id : Int) (node : alarm_queue_node_t)
    (threads threads' : List thread_node_t) (tid : Nat)
    (e : assign_existing group_id node threads = some (tid, threads')) :
    ∃ before t after, threads = before ++ t :: after ∧
      (∀ u ∈ before, ¬ (u.group_id = group_id ∧ u.alarm_count < 2)) ∧
      t.group_id = group_id ∧ t.alarm_count < 2 ∧ tid = t.thread_id ∧
      threads' = before ++
        { t with alarm_queue := node :: t.alarm_queue, alarm_count := t.alarm_count + 1 }
          :: after := by
  induction threads generalizing threads' tid with
  | nil => simp [assign_existing] at e
  | cons current rest ih =>
    by_cases c : current.group_id = group_id ∧ current.alarm_count < 2
    · rw [assign_existing, if_pos c] at e
      simp only [Option.some.injEq, Prod.mk.injEq] at e
      obtain ⟨rfl, rfl⟩ := e
      exact ⟨[], current, rest, rfl, by simp, c.1, c.2, rfl, rfl⟩
    · simp only [assign_existing, c, if_false] at e
      cases h' : assign_existing group_id node rest with
      | none => simp [h'] at e
      | some p =>
        obtain ⟨tid', rest'⟩ := p
        simp only [h', Option.some.injEq, Prod.mk.injEq] at e
        obtain ⟨rfl, rfl⟩ := e
        obtain ⟨before, t, after, h1, h2, h3, h4, h5, h6⟩ := ih rest' tid' h'
        refine ⟨current :: before, t, after, by simp [h1], ?_, h3, h4, h5, by simp [h6]⟩
        intro u hu
        rcases List.mem_cons.1 hu with rfl | hu
        · exact c
        · exact h2 u hu

/-- The load counter is not decremented when a node is unlinked (lines 377-386). With
worker iterations run on Directory nodes, as `Reachable` has them, a state is reached in
which the only worker serves group 1 and has one queued alarm left while its `alarm_count`
is still 2, and `Start_Alarm` for group 1 starts a new thread. -/
theorem Start_Alarm_ignores_freed_capacity :
    Reachable capacity_scenario ∧
    capacity_scenario.display_alarm_thread_list =
      [{ thread_id := 1, group_id := 1, alarm_count := 2,
         alarm_queue := [{ alarm := ⟨2⟩, reassigned := 0, message_changed := 0 }] }] ∧
    (∃ t ∈ capacity_scenario.display_alarm_thread_list,
      t.group_id = 1 ∧ t.alarm_queue.length < 2) ∧
    (Start_Alarm 4 1 10 "d" 30 0 0 capacity_scenario).1.display_alarm_thread_list =
      [{ thread_id := 2, group_id := 1, alarm_count := 0, alarm_queue := [] },
       { thread_id := 1, group_id := 1, alarm_count := 2,
         alarm_queue := [{ alarm := ⟨2⟩, reassigned := 0, message_changed := 0 }] }] := by
  refine ⟨?_, by decide, by decide, by decide⟩
  exact Reachable.step (Reachable.step (Reachable.step (Reachable.step (Reachable.step
    Reachable.init (Step.start_alarm 3 1 10 "a" 0 0 0 _)) (Step.start_alarm 1 1 10 "b" 0 0 0 _))
    (Step.start_alarm 2 1 10 "c" 0 0 0 _)) (Step.monitor 1 _)) (Step.display 0 _)

/-- What the scan of `Start_Alarm` decides by: in every reachable state a new thread is
started exactly when no worker of the Directory serves the group with `alarm_count < 2`,
and the new node is put in front of the Directory. Otherwise the first worker serving the
group with `alarm_count < 2` (it has fewer than 2 queued alarms) gets the alarm in front of
its queue and its counter incremented. -/
theorem Start_Alarm_new_worker_iff (s : State) (hs : Reachable s)
    (alarm_id group_id seconds : Int) (message : String)
    (now junk_reassigned junk_message_changed : Int) :
    ((Start_Alarm alarm_id group_id seconds message now junk_reassigned junk_message_changed
        s).1.threads_created = s.threads_created + 1 ↔
      ¬ ∃ t ∈ s.display_alarm_thread_list, t.group_id = group_id ∧ t.alarm_count < 2) ∧
    ((¬ ∃ t ∈ s.display_alarm_thread_list, t.group_id = group_id ∧ t.alarm_count < 2) →
      (Start_Alarm alarm_id group_id seconds message now junk_reassigned junk_message_changed
        s).1.display_alarm_thread_list =
      { thread_id := s.threads_created + 1, group_id := group_id, alarm_count := 0,
        alarm_queue := [] } :: s.display_alarm_thread_list) ∧
    ((∃ t ∈ s.display_alarm_thread_list, t.group_id = group_id ∧ t.alarm_count < 2) →
      ∃ before t after, s.display_alarm_thread_list = before ++ t :: after ∧
        (∀ u ∈ before, ¬ (u.group_id = group_id ∧ u.alarm_count < 2)) ∧
        t.group_id = group_id ∧ t.alarm_count < 2 ∧ t.alarm_queue.length < 2 ∧
        (Start_Alarm alarm_id group_id seconds message now junk_reassigned
          junk_message_changed s).1.display_alarm_thread_list =
        before ++
          { t with
            alarm_queue :=
              { alarm := ⟨alarm_id⟩, reassigned := junk_reassigned,
                message_changed := junk_message_changed } :: t.alarm_queue
            alarm_count := t.alarm_count + 1 } :: after) := by
  have hinv := reachable_within_count s hs
  cases e : assign_existing group_id
      { alarm := ⟨alarm_id⟩, reassigned := junk_reassigned,
        message_changed := junk_message_changed } s.display_alarm_thread_list with
  | none =>
    have hn := (assign_existing_eq_none _ _ _).1 e
    refine ⟨?_, ?_, ?_⟩
    · simp only [Start_Alarm, e, true_iff]
      simpa using hn
    · intro _
      simp [Start_Alarm, e, add_thread_node]
    · intro h
      exact absurd h hn
  | some p =>
    obtain ⟨tid, threads⟩ := p
    obtain ⟨before, t, after, h1, h2, h3, h4, -, h6⟩ := assign_existing_eq_some _ _ _ _ _ e
    have hex : ∃ t ∈ s.display_alarm_thread_list, t.group_id = group_id ∧ t.alarm_count < 2 :=
      ⟨t, by simp [h1], h3, h4⟩
    refine ⟨?_, ?_, ?_⟩
    · simp only [Start_Alarm, e]
      constructor
      · intro h
        simp at h
      · intro h
        exact absurd hex h
    · intro h
      exact absurd hex h
    · intro _
      refine ⟨before, t, after, h1, h2, h3, h4, ?_, ?_⟩
      · have := (hinv t (by simp [h1])).1
        omega
      · simp [Start_Alarm, e, h6]

theorem Start_Alarm_new_worker_iff_witness :
    Reachable State.init ∧
    ((Start_Alarm 1 1 10 "a" 0 0 0 State.init).1.threads_created =
        State.init.threads_created + 1 ↔
      ¬ ∃ t ∈ State.init.display_alarm_thread_list, t.group_id = 1 ∧ t.alarm_count < 2) :=
  ⟨Reachable.init, (Start_Alarm_new_worker_iff State.init Reachable.init 1 1 10 "a" 0 0 0).1⟩

/-! ## Ids in the Registry -/

theorem Start_Alarm_alarm_list (alarm_id group_id seconds : Int) (message : String)
    (now junk_reassigned junk_message_changed : Int) (s : State) :
    ∃ tid, (Start_Alarm alarm_id group_id seconds message now junk_reassigned
        junk_message_changed s).1.alarm_list =
      alarm_insert { id := alarm_id, group_id := group_id, seconds := seconds,
                     time := now + seconds, message := message, display_thread_id := tid }
        s.alarm_list := by
  unfold Start_Alarm
  cases e : assign_existing group_id
      { alarm := ⟨alarm_id⟩, reassigned := junk_reassigned,
        message_changed := junk_message_changed } s.display_alarm_thread_list with
  | none => exact ⟨s.threads_created + 1, by simp [e]⟩
  | some p => exact ⟨p.1, by simp [e]⟩

theorem submit_registry_ids (s : State) (x : Submission) :
    (registry_ids (submit s x).alarm_list).Perm (x.alarm_id :: registry_ids s.alarm_list) := by
  obtain ⟨tid, h⟩ := Start_Alarm_alarm_list x.alarm_id x.group_id x.seconds x.message x.now
    x.junk_reassigned x.junk_message_changed s
  unfold submit registry_ids
  rw [h]
  exact (alarm_insert_perm _ _).map _

theorem submit_all_registry_ids (xs : List Submission) (s : State) :
    (registry_ids (submit_all xs s).alarm_list).Perm
      (xs.map (fun x => x.alarm_id) ++ registry_ids s.alarm_list) := by
  induction xs generalizing s with
  | nil => simp [submit_all]
  | cons x rest ih =>
    have h1 := ih (submit s x)
    have h2 := submit_registry_ids s x
    simp only [submit_all, List.foldl_cons, List.map_cons, List.cons_append] at h1 ⊢
    exact h1.trans ((List.Perm.append_left _ h2).trans List.perm_middle)

/-- C6, as stated, fails: two `Start_Alarm` commands with id 1 leave two alarms with id 1
in the Registry. -/
theorem Registry_holds_duplicate_id :
    registry_ids (submit_all [⟨1, 1, 10, "a", 0, 0, 0⟩, ⟨1, 1, 10, "b", 0, 0, 0⟩]
      State.init).alarm_list = [1, 1] ∧
    ¬ (registry_ids (submit_all [⟨1, 1, 10, "a", 0, 0, 0⟩, ⟨1, 1, 10, "b", 0, 0, 0⟩]
      State.init).alarm_list).Nodup := by
  decide

/-- C6, amended: after any sequence of `Start_Alarm` commands to the empty system whose ids
are pairwise distinct, the Registry holds no two alarms with the same id. -/
theorem Registry_ids_nodup (xs : List Submission)
    (h : (xs.map (fun x => x.alarm_id)).Nodup) :
    (registry_ids (submit_all xs State.init).alarm_list).Nodup := by
  have hp := submit_all_registry_ids xs State.init
  simp only [State.init, registry_ids, List.map_nil, List.append_nil] at hp
  exact hp.nodup_iff.2 h

theorem Registry_ids_nodup_witness :
    (([⟨2, 1, 10, "a", 0, 0, 0⟩, ⟨1, 1, 10, "b", 0, 0, 0⟩] : List Submission).map
        (fun x => x.alarm_id)).Nodup ∧
    registry_ids (submit_all [⟨2, 1, 10, "a", 0, 0, 0⟩, ⟨1, 1, 10, "b", 0, 0, 0⟩]
      State.init).alarm_list = [1, 2] ∧
    (registry_ids (submit_all [⟨2, 1, 10, "a", 0, 0, 0⟩, ⟨1, 1, 10, "b", 0, 0, 0⟩]
      State.init).alarm_list).Nodup :=
  ⟨by decide, by decide,
    Registry_ids_nodup [⟨2, 1, 10, "a", 0, 0, 0⟩, ⟨1, 1, 10, "b", 0, 0, 0⟩] (by decide)⟩

/-! ## Applying one change request -/

theorem search_alarm_found (r : change_request_t) (s : State) (a : alarm_t)
    (before after : List alarm_t) (ha : a.id = r.alarm_id)
    (hb : ∀ b ∈ before, b.id ≠ r.alarm_id) (visited : List alarm_t) :
    search_alarm r s visited (before ++ a :: after) =
      ({ (change_alarm r a s).2 with
          alarm_list := visited ++ before ++ (change_alarm r a s).1 :: after },
        [Event.change_applied (change_alarm r a s).1.id]) := by
  induction before generalizing visited with
  | nil => simp [search_alarm, ha]
  | cons b rest ih =>
    have hne : b.id ≠ r.alarm_id := hb b (List.mem_cons_self _ _)
    have hrest : ∀ c ∈ rest, c.id ≠ r.alarm_id := fun c hc => hb c (List.mem_cons_of_mem _ hc)
    rw [List.cons_append, search_alarm, if_neg hne, ih hrest (visited ++ [b])]
    simp

theorem search_alarm_not_found (r : change_request_t) (s : State) (rest : List alarm_t)
    (h : ∀ b ∈ rest, b.id ≠ r.alarm_id) (visited : List alarm_t) :
    search_alarm r s visited rest = (s, [Event.change_invalid r.alarm_id]) := by
  induction rest generalizing visited with
  | nil => rfl
  | cons b rest ih =>
    have hne : b.id ≠ r.alarm_id := h b (List.mem_cons_self _ _)
    rw [search_alarm, if_neg hne]
    exact ih (fun c hc => h c (List.mem_cons_of_mem _ hc)) _

theorem reassign_alarm_fields (alarm : alarm_t) (s : State) :
    (reassign_alarm alarm s).1.id = alarm.id ∧ (reassign_alarm alarm s).1.time = alarm.time ∧
    (reassign_alarm alarm s).1.group_id = alarm.group_id ∧
    (reassign_alarm alarm s).1.message = alarm.message := by
  simp [reassign_alarm]

theorem change_alarm_fields (r : change_request_t) (alarm : alarm_t) (s : State) :
    (change_alarm r alarm s).1.id = alarm.id ∧ (change_alarm r alarm s).1.time = r.new_time ∧
    (change_alarm r alarm s).1.group_id = r.new_group_id ∧
    (change_alarm r alarm s).1.message = r.new_message := by
  unfold change_alarm
  dsimp only
  by_cases g : alarm.group_id = r.new_group_id <;>
    by_cases m : alarm.message = r.new_message <;>
    simp [g, m, reassign_alarm_fields]

/-- C7, as stated, fails: a request with duration 10 is typed at time 3; the monitor
iteration started at time 1 waits for the head alarm until time 5, removes it and then
applies the request. The alarm is left with expiry time 13 = 3 + 10, which is not
t_apply + 10 for any application time t_apply from 5 on. -/
theorem change_time_not_recomputed :
    (alarm_monitor_pass 1 change_scenario).1.alarm_list =
      [{ id := 2, group_id := 1, seconds := 100, time := 13, message := "b",
         display_thread_id := 1 }] ∧
    (alarm_monitor_pass 1 change_scenario).2 =
      [Event.alarm_removed_expired 1, Event.change_applied 2] ∧
    ∀ t_apply : Int, 5 ≤ t_apply →
      ∀ a ∈ (alarm_monitor_pass 1 change_scenario).1.alarm_list, a.time ≠ t_apply + 10 := by
  refine ⟨by decide, by decide, ?_⟩
  intro t_apply h a ha
  have e : (alarm_monitor_pass 1 change_scenario).1.alarm_list =
      [{ id := 2, group_id := 1, seconds := 100, time := 13, message := "b",
         display_thread_id := 1 }] := by decide
  rw [e, List.mem_singleton] at ha
  subst ha
  show (13 : Int) ≠ t_apply + 10
  omega

/-- C7, amended: a change request with duration d typed at time t_submit and applied to an
alarm present in the Registry leaves the alarm with expiry time t_submit + d (computed when
the command was typed), whenever the monitor applies it: both for the application step in
any state, and for a whole monitor iteration started at any time t_apply after the command
(the iteration first drops the Registry head). -/
theorem change_time_from_submission (s : State) (a : alarm_t) (before after : List alarm_t)
    (alarm_id group_id d : Int) (message : String) (t_submit t_apply : Int)
    (hl : s.alarm_list = before ++ a :: after) (ha : a.id = alarm_id)
    (hb : ∀ b ∈ before, b.id ≠ alarm_id) :
    (∃ a', (apply_change_request (new_request alarm_id group_id d message t_submit)
          s).1.alarm_list = before ++ a' :: after ∧
        a'.id = alarm_id ∧ a'.time = t_submit + d) ∧
    (∀ head : alarm_t, ∃ a',
        (alarm_monitor_pass t_apply
          (Change_Alarm alarm_id group_id d message t_submit
            { s with alarm_list := head :: s.alarm_list, change_request_list := [] }).1
          ).1.alarm_list = before ++ a' :: after ∧
        a'.id = alarm_id ∧ a'.time = t_submit + d) := by
  have hr : a.id = (new_request alarm_id group_id d message t_submit).alarm_id := ha
  have hbr : ∀ b ∈ before,
      b.id ≠ (new_request alarm_id group_id d message t_submit).alarm_id := hb
  constructor
  · refine ⟨(change_alarm (new_request alarm_id group_id d message t_submit) a s).1, ?_, ?_, ?_⟩
    · rw [apply_change_request, hl, search_alarm_found _ _ _ _ _ hr hbr]
      simp
    · rw [(change_alarm_fields _ _ _).1, ha]
    · rw [(change_alarm_fields _ _ _).2.1]
      rfl
  · intro head
    refine ⟨(change_alarm (new_request alarm_id group_id d message t_submit) a
      (expire_step t_apply (Change_Alarm alarm_id group_id d message t_submit
        { s with alarm_list := head :: s.alarm_list, change_request_list := [] }).1).1).1,
      ?_, ?_, ?_⟩
    · simp only [alarm_monitor_pass, Change_Alarm, insert_change_request, expire_step,
        head_expired, ite_self, if_true, process_change_requests, apply_change_request, hl]
      rw [search_alarm_found _ _ _ _ _ hr hbr]
      simp
    · rw [(change_alarm_fields _ _ _).1, ha]
    · rw [(change_alarm_fields _ _ _).2.1]
      rfl

theorem change_time_from_submission_witness :
    (∃ a', (apply_change_request (new_request 2 1 10 "b" 3)
          (Start_Alarm 2 1 100 "b" 0 0 0 State.init).1).1.alarm_list = [] ++ a' :: [] ∧
        a'.id = 2 ∧ a'.time = 3 + 10) :=
  (change_time_from_submission (Start_Alarm 2 1 100 "b" 0 0 0 State.init).1
    ⟨2, 1, 100, 100, "b", 1⟩ [] [] 2 1 10 "b" 3 5 (by decide) (by decide) (by decide)).1

/-! ## Requests that match no alarm -/

theorem find_or_create_requests (group_id : Int) (s : State) (l : List change_request_t) :
    find_or_create_thread_for_group group_id { s with change_request_list := l } =
      ((find_or_create_thread_for_group group_id s).1,
        { (find_or_create_thread_for_group group_id s).2 with change_request_list := l }) := by
  unfold find_or_create_thread_for_group
  dsimp only
  split <;> rfl

theorem reassign_alarm_requests (alarm : alarm_t) (s : State) (l : List change_request_t) :
    reassign_alarm alarm { s with change_request_list := l } =
      ((reassign_alarm alarm s).1,
        { (reassign_alarm alarm s).2 with change_request_list := l }) := by
  have h := find_or_create_requests alarm.group_id
    { s with
      display_alarm_thread_list :=
        signal_display_thread alarm.display_thread_id alarm.id (-1) 0
          s.display_alarm_thread_list } l
  dsimp only at h
  unfold reassign_alarm
  dsimp only
  rw [h]

theorem change_alarm_requests (r : change_request_t) (alarm : alarm_t) (s : State)
    (l : List change_request_t) :
    change_alarm r alarm { s with change_request_list := l } =
      ((change_alarm r alarm s).1, { (change_alarm r alarm s).2 with change_request_list := l }) := by
  unfold change_alarm
  dsimp only
  by_cases g : alarm.group_id = r.new_group_id <;>
    by_cases m : alarm.message = r.new_message <;>
    simp [g, m, reassign_alarm_requests]

theorem search_alarm_requests (r : change_request_t) (s : State) (l : List change_request_t)
    (visited rest : List alarm_t) :
    search_alarm r { s with change_request_list := l } visited rest =
      ({ (search_alarm r s visited rest).1 with change_request_list := l },
        (search_alarm r s visited rest).2) := by
  induction rest generalizing visited with
  | nil => rfl
  | cons a rest ih =>
    by_cases e : a.id = r.alarm_id
    · simp [search_alarm, e, change_alarm_requests]
    · simp only [search_alarm, e, if_false]
      exact ih _

theorem process_change_requests_requests (l : List change_request_t) (s : State)
    (q : List change_request_t) :
    process_change_requests l { s with change_request_list := q } =
      process_change_requests l s := by
  cases l with
  | nil => rfl
  | cons r rest =>
    simp only [process_change_requests, apply_change_request, search_alarm_requests]

theorem search_alarm_ids (r : change_request_t) (s : State) (visited rest : List alarm_t) :
    registry_ids (search_alarm r s visited rest).1.alarm_list =
      if rest.all (fun a => decide (a.id ≠ r.alarm_id)) then registry_ids s.alarm_list
      else registry_ids (visited ++ rest) := by
  induction rest generalizing visited with
  | nil => simp [search_alarm]
  | cons a rest ih =>
    by_cases e : a.id = r.alarm_id
    · simp [search_alarm, e, registry_ids, (change_alarm_fields r a s).1]
    · rw [search_alarm, if_neg e, ih]
      simp [e]

theorem apply_change_request_ids (r : change_request_t) (s : State) :
    registry_ids (apply_change_request r s).1.alarm_list = registry_ids s.alarm_list := by
  rw [apply_change_request, search_alarm_ids]
  split <;> simp

theorem no_alarm_iff_ids (l : List alarm_t) (i : Int) :
    (∀ a ∈ l, a.id ≠ i) ↔ i ∉ registry_ids l := by
  simp only [registry_ids, List.mem_map, not_exists, not_and]

theorem process_without_invalid (r : change_request_t) (before after : List change_request_t)
    (s : State) (hr : ∀ a ∈ s.alarm_list, a.id ≠ r.alarm_id) :
    (process_change_requests (before ++ r :: after) s).1 =
      (process_change_requests (before ++ after) s).1 ∧
    ∃ e1 e2, (process_change_requests (before ++ after) s).2 = e1 ++ e2 ∧
      (process_change_requests (before ++ r :: after) s).2 =
        e1 ++ Event.change_invalid r.alarm_id :: e2 := by
  induction before generalizing s with
  | nil =>
    have h1 : apply_change_request r s = (s, [Event.change_invalid r.alarm_id]) :=
      search_alarm_not_found r s s.alarm_list hr []
    rw [List.nil_append, List.nil_append, process_change_requests, h1]
    dsimp only
    rw [process_change_requests_requests]
    exact ⟨rfl, [], _, rfl, rfl⟩
  | cons b rest ih =>
    have hr' : ∀ a ∈ (apply_change_request b s).1.alarm_list, a.id ≠ r.alarm_id := by
      rw [no_alarm_iff_ids, apply_change_request_ids, ← no_alarm_iff_ids]
      exact hr
    obtain ⟨h1, e1, e2, h2, h3⟩ := ih (apply_change_request b s).1 hr'
    rw [List.cons_append, List.cons_append, process_change_requests, process_change_requests]
    dsimp only
    rw [process_change_requests_requests (rest ++ r :: after) _ (rest ++ r :: after),
      process_change_requests_requests (rest ++ after) _ (rest ++ after)]
    refine ⟨h1, (apply_change_request b s).2 ++ e1, e2, ?_, ?_⟩
    · rw [h2, List.append_assoc]
    · rw [h3, List.append_assoc]

theorem process_change_requests_empties (l : List change_request_t) (s : State) :
    (process_change_requests l s).1.change_request_list = [] := by
  induction l generalizing s with
  | nil => rfl
  | cons r rest ih =>
    simp only [process_change_requests]
    exact ih _

theorem expire_step_requests (now : Int) (s : State) (q : List change_request_t) :
    expire_step now { s with change_request_list := q } =
      ({ (expire_step now s).1 with change_request_list := q }, (expire_step now s).2) := by
  unfold expire_step
  cases h : s.alarm_list with
  | nil => simp [h]
  | cons a rest => simp [h, head_expired]

theorem expire_step_keeps_requests (now : Int) (s : State) :
    (expire_step now s).1.change_request_list = s.change_request_list := by
  unfold expire_step
  cases h : s.alarm_list with
  | nil => rfl
  | cons a rest => simp [head_expired]

theorem expire_step_alarms (now : Int) (s : State) :
    ∀ a ∈ (expire_step now s).1.alarm_list, a ∈ s.alarm_list := by
  unfold expire_step
  cases h : s.alarm_list with
  | nil => simp [h]
  | cons a rest =>
    intro b hb
    simp only [head_expired, ite_self, if_true] at hb
    exact List.mem_cons_of_mem _ hb

/-- The list logic of the change loop, every `printf` taken as returning: when the queue
holds a request whose `alarm_id` matches no alarm of the Registry, the loop gives the
invalid-request line for it, leaves the queue empty, and ends in the very state (Registry,
Directory with every queue, thread counter) it ends in when that request is taken out of
the queue beforehand; the lines are the same with the invalid-request line put in. The
same holds for a whole monitor iteration. What the loop does as written is in
`change_loop_as_written`. -/
theorem invalid_change_request_no_effect (s : State) (r : change_request_t)
    (before after : List change_request_t) (now : Int)
    (hq : s.change_request_list = before ++ r :: after)
    (hr : ∀ a ∈ s.alarm_list, a.id ≠ r.alarm_id) :
    (Event.change_invalid r.alarm_id ∈ (process_change_requests s.change_request_list s).2 ∧
      (process_change_requests s.change_request_list s).1.change_request_list = [] ∧
      (process_change_requests s.change_request_list s).1 =
        (process_change_requests (before ++ after) s).1 ∧
      ∃ e1 e2, (process_change_requests (before ++ after) s).2 = e1 ++ e2 ∧
        (process_change_requests s.change_request_list s).2 =
          e1 ++ Event.change_invalid r.alarm_id :: e2) ∧
    (Event.change_invalid r.alarm_id ∈ (alarm_monitor_pass now s).2 ∧
      (alarm_monitor_pass now s).1.change_request_list = [] ∧
      (alarm_monitor_pass now s).1 =
        (alarm_monitor_pass now { s with change_request_list := before ++ after }).1 ∧
      ∃ e1 e2,
        (alarm_monitor_pass now { s with change_request_list := before ++ after }).2 =
          e1 ++ e2 ∧
        (alarm_monitor_pass now s).2 = e1 ++ Event.change_invalid r.alarm_id :: e2) := by
  constructor
  · obtain ⟨h1, e1, e2, h2, h3⟩ := process_without_invalid r before after s hr
    rw [hq]
    refine ⟨?_, process_change_requests_empties _ _, h1, e1, e2, h2, h3⟩
    rw [h3]
    simp
  · have hr' : ∀ a ∈ (expire_step now s).1.alarm_list, a.id ≠ r.alarm_id :=
      fun a ha => hr a (expire_step_alarms now s a ha)
    obtain ⟨h1, e1, e2, h2, h3⟩ :=
      process_without_invalid r before after (expire_step now s).1 hr'
    have hp : alarm_monitor_pass now s =
        ((process_change_requests (before ++ r :: after) (expire_step now s).1).1,
          (expire_step now s).2 ++
            (process_change_requests (before ++ r :: after) (expire_step now s).1).2) := by
      simp only [alarm_monitor_pass, expire_step_keeps_requests, hq]
    have hp' : alarm_monitor_pass now { s with change_request_list := before ++ after } =
        ((process_change_requests (before ++ after) (expire_step now s).1).1,
          (expire_step now s).2 ++
            (process_change_requests (before ++ after) (expire_step now s).1).2) := by
      simp only [alarm_monitor_pass, expire_step_requests]
      rw [process_change_requests_requests (before ++ after) _ (before ++ after)]
    rw [hp, hp']
    refine ⟨?_, process_change_requests_empties _ _, h1, (expire_step now s).2 ++ e1, e2, ?_,
      ?_⟩
    · simp [h3]
    · simp [h2]
    · simp [h3]


theorem invalid_change_request_no_effect_witness :
    Event.change_invalid 7 ∈
        (alarm_monitor_pass 1 (Change_Alarm 7 1 10 "x" 4 change_scenario).1).2 ∧
      (alarm_monitor_pass 1 (Change_Alarm 7 1 10 "x" 4 change_scenario).1).1 =
        (alarm_monitor_pass 1
          { (Change_Alarm 7 1 10 "x" 4 change_scenario).1 with
            change_request_list := [new_request 2 1 10 "b" 3] ++ [] }).1 :=
  ⟨(invalid_change_request_no_effect (Change_Alarm 7 1 10 "x" 4 change_scenario).1
      (new_request 7 1 10 "x" 4) [new_request 2 1 10 "b" 3] [] 1 (by decide)
      (by decide)).2.1,
    (invalid_change_request_no_effect (Change_Alarm 7 1 10 "x" 4 change_scenario).1
      (new_request 7 1 10 "x" 4) [new_request 2 1 10 "b" 3] [] 1 (by decide)
      (by decide)).2.2.2.1⟩

/-! ## Group and message changes seen by the workers -/

/-- C9 at the failing input: the monitor iteration (started at time 1, it first waits for
and removes the head alarm 1) applies the group change of alarm 2,
flags its node at the old worker 1 with `reassigned = -1` and starts worker 2 for the new
group, whose queue stays empty. The pass of worker 1 prints the stop line and drops the
node; the pass of worker 2 prints no take-over line (only its exit line), and afterwards
alarm 2 is in no queue. -/
theorem group_change_no_takeover :
    (alarm_monitor_pass 1 group_change_scenario).1.alarm_list =
      [{ id := 2, group_id := 2, seconds := 100, time := 55, message := "m",
         display_thread_id := 2 }] ∧
    (alarm_monitor_pass 1 group_change_scenario).1.display_alarm_thread_list =
      [{ thread_id := 2, group_id := 2, alarm_count := 0, alarm_queue := [] },
       { thread_id := 1, group_id := 1, alarm_count := 1,
         alarm_queue := [{ alarm := ⟨2⟩, reassigned := -1, message_changed := 0 }] }] ∧
    (display_pass 1 (alarm_monitor_pass 1 group_change_scenario).1).2 =
      [Event.worker_stop 1 2, Event.worker_exit 1] ∧
    (display_pass 0 (display_pass 1 (alarm_monitor_pass 1 group_change_scenario).1).1).2 =
      [Event.worker_exit 2] ∧
    (display_pass 0 (display_pass 1
        (alarm_monitor_pass 1 group_change_scenario).1).1).1.display_alarm_thread_list =
      [{ thread_id := 2, group_id := 2, alarm_count := 0, alarm_queue := [] },
       { thread_id := 1, group_id := 1, alarm_count := 1, alarm_queue := [] }] ∧
    find_thread_id_by_alarm_id 2
      (display_pass 0 (display_pass 1
        (alarm_monitor_pass 1 group_change_scenario).1).1).1.display_alarm_thread_list = 0 := by
  decide

/-- C10 at the failing input: alarm 2 started worker 2 and was not put in its queue. The
monitor iteration (started at time 1, it first waits for and removes the head alarm 1)
applies the message change (the Registry holds the new message) and
signals worker 2, whose queue has no node to flag; the pass of worker 2 prints no
changed-message line (only its exit line). -/
theorem message_change_no_event :
    (alarm_monitor_pass 1 message_change_scenario).1.alarm_list =
      [{ id := 2, group_id := 2, seconds := 100, time := 55, message := "new",
         display_thread_id := 2 }] ∧
    (alarm_monitor_pass 1 message_change_scenario).2 =
      [Event.alarm_removed_expired 1, Event.change_applied 2] ∧
    (alarm_monitor_pass 1 message_change_scenario).1.display_alarm_thread_list =
      [{ thread_id := 2, group_id := 2, alarm_count := 0, alarm_queue := [] },
       { thread_id := 1, group_id := 1, alarm_count := 0, alarm_queue := [] }] ∧
    (display_pass 0 (alarm_monitor_pass 1 message_change_scenario).1).2 =
      [Event.worker_exit 2] ∧
    Event.worker_message_changed 2 2 ∉
      (display_pass 0 (alarm_monitor_pass 1 message_change_scenario).1).2 := by
  decide

/-! ## A message change of an alarm that is queued at its recorded worker -/

theorem set_flags_at (alarm_id reassigned message_changed : Int) (n : alarm_queue_node_t)
    (qb qa : List alarm_queue_node_t) (hn : n.alarm.id = alarm_id)
    (hqb : ∀ m ∈ qb, m.alarm.id ≠ alarm_id) :
    set_flags alarm_id reassigned message_changed (qb ++ n :: qa) =
      qb ++ { n with reassigned := reassigned, message_changed := message_changed } :: qa := by
  induction qb with
  | nil => simp [set_flags, hn]
  | cons m rest ih =>
    have hm : m.alarm.id ≠ alarm_id := hqb m (List.mem_cons_self _ _)
    rw [List.cons_append, set_flags, if_neg hm,
      ih (fun k hk => hqb k (List.mem_cons_of_mem _ hk))]
    rfl

theorem signal_display_thread_at (thread_id : Nat) (alarm_id reassigned message_changed : Int)
    (w : thread_node_t) (wb wa : List thread_node_t) (hw : w.thread_id = thread_id)
    (hwb : ∀ u ∈ wb, u.thread_id ≠ thread_id) :
    signal_display_thread thread_id alarm_id reassigned message_changed (wb ++ w :: wa) =
      wb ++ { w with
              alarm_queue := set_flags alarm_id reassigned message_changed w.alarm_queue }
        :: wa := by
  induction wb with
  | nil => simp [signal_display_thread, hw]
  | cons u rest ih =>
    have hu : u.thread_id ≠ thread_id := hwb u (List.mem_cons_self _ _)
    rw [List.cons_append, signal_display_thread, if_neg hu,
      ih (fun k hk => hwb k (List.mem_cons_of_mem _ hk))]
    rfl

theorem display_pass_at_length (w : thread_node_t) (wb wa : List thread_node_t) :
    display_pass_at wb.length (wb ++ w :: wa) =
      (wb ++ (display_alarm_pass w).1 :: wa, (display_alarm_pass w).2) := by
  induction wb with
  | nil => rfl
  | cons u rest ih =>
    rw [List.cons_append, List.length_cons, display_pass_at, ih]
    rfl

theorem render_queue_append (tid : Nat) (qb qa : List alarm_queue_node_t) :
    render_queue tid (qb ++ qa) =
      ((render_queue tid qb).1 ++ (render_queue tid qa).1,
        (render_queue tid qb).2 ++ (render_queue tid qa).2) := by
  induction qb with
  | nil => simp [render_queue]
  | cons m rest ih =>
    rw [List.cons_append, render_queue, render_queue, ih]
    dsimp only
    split
    · rfl
    · split
      · rfl
      · split <;> rfl

theorem render_queue_event_ids (tid : Nat) (q : List alarm_queue_node_t) (e : Event)
    (he : e ∈ (render_queue tid q).2) :
    ∃ m ∈ q, e = Event.worker_takeover tid m.alarm.id ∨ e = Event.worker_stop tid m.alarm.id ∨
      e = Event.worker_message_changed tid m.alarm.id ∨
      e = Event.worker_render tid m.alarm.id := by
  induction q with
  | nil => simp [render_queue] at he
  | cons m rest ih =>
    have hrest : e ∈ (render_queue tid rest).2 → ∃ k ∈ m :: rest,
        e = Event.worker_takeover tid k.alarm.id ∨ e = Event.worker_stop tid k.alarm.id ∨
        e = Event.worker_message_changed tid k.alarm.id ∨
        e = Event.worker_render tid k.alarm.id := by
      intro h
      obtain ⟨k, hk, hk'⟩ := ih h
      exact ⟨k, List.mem_cons_of_mem _ hk, hk'⟩
    rw [render_queue] at he
    split at he
    · rcases List.mem_cons.1 he with rfl | h
      · exact ⟨m, List.mem_cons_self _ _, Or.inl rfl⟩
      · exact hrest h
    · split at he
      · rcases List.mem_cons.1 he with rfl | h
        · exact ⟨m, List.mem_cons_self _ _, Or.inr (Or.inl rfl)⟩
        · exact hrest h
      · split at he
        · rcases List.mem_cons.1 he with rfl | h
          · exact ⟨m, List.mem_cons_self _ _, Or.inr (Or.inr (Or.inl rfl))⟩
          · exact hrest h
        · rcases List.mem_cons.1 he with rfl | h
          · exact ⟨m, List.mem_cons_self _ _, Or.inr (Or.inr (Or.inr rfl))⟩
          · exact hrest h

/-- The message change of a queued alarm: when the request keeps the group and gives a
different message, the alarm is the first of the Registry with the id, the first thread
node with the recorded thread id has exactly one queue node for the id, then after the
request is applied the pass of that worker prints the changed-message line for the alarm,
prints neither the take-over nor the stop line for it, and keeps the node (flags reset). -/
theorem message_change_event_when_queued (s : State) (r : change_request_t) (a : alarm_t)
    (before after : List alarm_t) (w : thread_node_t) (wb wa : List thread_node_t)
    (n : alarm_queue_node_t) (qb qa : List alarm_queue_node_t)
    (hl : s.alarm_list = before ++ a :: after) (ha : a.id = r.alarm_id)
    (hb : ∀ b ∈ before, b.id ≠ r.alarm_id)
    (hd : s.display_alarm_thread_list = wb ++ w :: wa)
    (hw : w.thread_id = a.display_thread_id)
    (hwb : ∀ u ∈ wb, u.thread_id ≠ a.display_thread_id)
    (hq : w.alarm_queue = qb ++ n :: qa) (hn : n.alarm.id = a.id)
    (hqb : ∀ m ∈ qb, m.alarm.id ≠ a.id) (hqa : ∀ m ∈ qa, m.alarm.id ≠ a.id)
    (hg : a.group_id = r.new_group_id) (hm : a.message ≠ r.new_message) :
    Event.worker_message_changed w.thread_id a.id ∈
      (display_pass wb.length (apply_change_request r s).1).2 ∧
    Event.worker_takeover w.thread_id a.id ∉
      (display_pass wb.length (apply_change_request r s).1).2 ∧
    Event.worker_stop w.thread_id a.id ∉
      (display_pass wb.length (apply_change_request r s).1).2 ∧
    (display_pass wb.length (apply_change_request r s).1).1.display_alarm_thread_list =
      wb ++ { w with
              alarm_queue := (render_queue w.thread_id qb).1 ++
                { n with reassigned := 0, message_changed := 0 } ::
                  (render_queue w.thread_id qa).1 } :: wa := by
  have hca : (change_alarm r a s).2.display_alarm_thread_list =
      wb ++ { w with
              alarm_queue := qb ++ { n with reassigned := 0, message_changed := 1 } :: qa }
        :: wa := by
    unfold change_alarm
    simp only [hg, ne_eq, not_true_eq_false, if_false, hm, not_false_eq_true, if_true,
      one_ne_zero, hd]
    rw [signal_display_thread_at _ _ _ _ w wb wa hw hwb, hq, set_flags_at _ _ _ n qb qa hn hqb]
  have hrn : render_queue w.thread_id
      ({ n with reassigned := 0, message_changed := 1 } :: qa) =
      ({ n with reassigned := 0, message_changed := 0 } :: (render_queue w.thread_id qa).1,
        Event.worker_message_changed w.thread_id a.id :: (render_queue w.thread_id qa).2) := by
    rw [render_queue]
    simp [hn]
  have hpass : display_pass wb.length (apply_change_request r s).1 =
      ({ (change_alarm r a s).2 with
          alarm_list := before ++ (change_alarm r a s).1 :: after
          display_alarm_thread_list :=
            wb ++ { w with
                    alarm_queue := (render_queue w.thread_id qb).1 ++
                      { n with reassigned := 0, message_changed := 0 } ::
                        (render_queue w.thread_id qa).1 } :: wa },
        (render_queue w.thread_id qb).2 ++
          Event.worker_message_changed w.thread_id a.id :: (render_queue w.thread_id qa).2 ++
          []) := by
    rw [apply_change_request, hl, search_alarm_found r s a before after ha hb []]
    simp only [display_pass, hca, display_pass_at_length, display_alarm_pass,
      render_queue_append, hrn]
    simp
  have hno : ∀ e : Event,
      (e = Event.worker_takeover w.thread_id a.id ∨ e = Event.worker_stop w.thread_id a.id) →
      e ∉ (display_pass wb.length (apply_change_request r s).1).2 := by
    intro e he hmem
    rw [hpass] at hmem
    simp only [List.append_nil, List.mem_append, List.mem_cons] at hmem
    have hside : ∀ q : List alarm_queue_node_t, (∀ m ∈ q, m.alarm.id ≠ a.id) →
        e ∉ (render_queue w.thread_id q).2 := by
      intro q hqn hin
      obtain ⟨m, hmq, hcase⟩ := render_queue_event_ids _ _ _ hin
      have hne := hqn m hmq
      rcases he with rfl | rfl <;> simp at hcase <;> exact hne hcase.symm
    rcases hmem with h | h | h
    · exact hside qb hqb h
    · rcases he with rfl | rfl <;> cases h
    · exact hside qa hqa h
  refine ⟨?_, hno _ (Or.inl rfl), hno _ (Or.inr rfl), ?_⟩
  · rw [hpass]
    simp
  · rw [hpass]

theorem message_change_event_when_queued_witness :
    Event.worker_message_changed 1 2 ∈
      (display_pass 0 (apply_change_request (new_request 2 1 50 "new" 15)
        (Start_Alarm 2 1 100 "old" 0 0 0 (Start_Alarm 1 1 10 "a" 0 0 0 State.init).1).1).1).2 :=
  (message_change_event_when_queued
    (Start_Alarm 2 1 100 "old" 0 0 0 (Start_Alarm 1 1 10 "a" 0 0 0 State.init).1).1
    (new_request 2 1 50 "new" 15) ⟨2, 1, 100, 100, "old", 1⟩ [⟨1, 1, 10, 10, "a", 1⟩] []
    ⟨1, 1, 1, [⟨⟨2⟩, 0, 0⟩]⟩ [] [] ⟨⟨2⟩, 0, 0⟩ [] []
    (by decide) (by decide) (by decide) (by decide) (by decide) (by decide) (by decide)
    (by decide) (by decide) (by decide) (by decide) (by decide)).1

/-! ## The expiry step of a monitor iteration -/

theorem process_change_requests_ids (l : List change_request_t) (s : State) :
    registry_ids (process_change_requests l s).1.alarm_list = registry_ids s.alarm_list := by
  induction l generalizing s with
  | nil => rfl
  | cons r rest ih =>
    rw [process_change_requests]
    dsimp only
    rw [ih]
    exact apply_change_request_ids r s

/-- C13: for every worker queue, the queue loop of one pass of
`display_alarm_thread_function` prints one line per entry, in queue order, chosen by the
flags of the entry (`reassigned = 1`: take-over; `reassigned = -1`: stop; otherwise
`message_changed` non-zero: changed message; otherwise routine), and leaves the queue as
the old queue without the entries that had `reassigned = -1`, the others in their old
order with the flag that selected a take-over or changed-message line reset to 0. -/
theorem render_queue_per_entry (display_thread_id : Nat) (q : List alarm_queue_node_t) :
    (render_queue display_thread_id q).2 = q.map (spec_entry_event display_thread_id) ∧
    (render_queue display_thread_id q).1 =
      (q.filter (fun n => decide (n.reassigned ≠ -1))).map spec_entry_after := by
  induction q with
  | nil => exact ⟨rfl, rfl⟩
  | cons n rest ih =>
    obtain ⟨ih1, ih2⟩ := ih
    by_cases h1 : n.reassigned = 1
    · have h2 : n.reassigned ≠ -1 := by omega
      simp [render_queue, spec_entry_event, spec_entry_after, h1, ih1, ih2]
    · by_cases h2 : n.reassigned = -1
      · simp [render_queue, spec_entry_event, h2, ih1, ih2]
      · by_cases h3 : n.message_changed = 0
        · simp [render_queue, spec_entry_event, spec_entry_after, h1, h2, h3, ih1, ih2]
        · simp [render_queue, spec_entry_event, spec_entry_after, h1, h2, h3, ih1, ih2]

/-! ## The Directory after a worker has exited -/

theorem display_pass_at_thread_ids (i : Nat) (threads : List thread_node_t) :
    (display_pass_at i threads).1.map (fun t => (t.thread_id, t.group_id, t.alarm_count)) =
      threads.map (fun t => (t.thread_id, t.group_id, t.alarm_count)) := by
  induction threads generalizing i with
  | nil => cases i <;> rfl
  | cons t rest ih =>
    cases i with
    | zero => simp [display_pass_at, display_alarm_pass]
    | succ j => simp [display_pass_at, ih j]

/-- Every worker iteration leaves the Directory with the same thread nodes (thread id,
group and load counter of every position); only queues change. -/
theorem display_pass_keeps_nodes (i : Nat) (s : State) :
    (display_pass i s).1.display_alarm_thread_list.map
        (fun t => (t.thread_id, t.group_id, t.alarm_count)) =
      s.display_alarm_thread_list.map (fun t => (t.thread_id, t.group_id, t.alarm_count)) :=
  display_pass_at_thread_ids i s.display_alarm_thread_list

/-- C12 at the failing input: the iteration of worker 1 drops its last alarm, leaves its
queue empty and prints the exit line, and the Directory still holds the node of thread 1.
`find_or_create_thread_for_group` then returns thread 1 for group 1 without starting a
thread, and the scan of `Start_Alarm` gives the next alarm of group 1 to thread 1. -/
theorem exited_worker_stays_in_directory :
    (display_pass 0 exit_scenario).2 = [Event.worker_stop 1 2, Event.worker_exit 1] ∧
    (display_pass 0 exit_scenario).1.display_alarm_thread_list =
      [{ thread_id := 1, group_id := 1, alarm_count := 1, alarm_queue := [] }] ∧
    (find_or_create_thread_for_group 1 (display_pass 0 exit_scenario).1).1 = 1 ∧
    (find_or_create_thread_for_group 1 (display_pass 0 exit_scenario).1).2 =
      (display_pass 0 exit_scenario).1 ∧
    (Start_Alarm 3 1 10 "c" 25 0 0 (display_pass 0 exit_scenario).1).2 =
      [Event.worker_assigned_existing 1 3, Event.alarm_inserted 3] ∧
    (Start_Alarm 3 1 10 "c" 25 0 0
        (display_pass 0 exit_scenario).1).1.display_alarm_thread_list =
      [{ thread_id := 1, group_id := 1, alarm_count := 2,
         alarm_queue := [{ alarm := ⟨3⟩, reassigned := 0, message_changed := 0 }] }] := by
  decide

/-! ## Two change requests for one alarm -/

theorem insert_change_request_split (r : change_request_t) (q : List change_request_t) :
    ∃ l1 l2, q = l1 ++ l2 ∧ insert_change_request r q = l1 ++ r :: l2 ∧
      ∀ x ∈ l1, x.alarm_id < r.alarm_id := by
  induction q with
  | nil => exact ⟨[], [], rfl, rfl, by simp⟩
  | cons next rest ih =>
    by_cases h : next.alarm_id ≥ r.alarm_id
    · exact ⟨[], next :: rest, rfl, by simp [insert_change_request, h], by simp⟩
    · obtain ⟨l1, l2, h1, h2, h3⟩ := ih
      refine ⟨next :: l1, l2, by simp [h1], by simp [insert_change_request, h, h2], ?_⟩
      intro x hx
      rcases List.mem_cons.1 hx with rfl | hx
      · omega
      · exact h3 x hx

theorem insert_change_request_before (r y : change_request_t)
    (l1 l2 : List change_request_t) (h1 : ∀ x ∈ l1, x.alarm_id < r.alarm_id)
    (hy : y.alarm_id ≥ r.alarm_id) :
    insert_change_request r (l1 ++ y :: l2) = l1 ++ r :: y :: l2 := by
  induction l1 with
  | nil => simp [insert_change_request, hy]
  | cons x rest ih =>
    have hx : ¬ x.alarm_id ≥ r.alarm_id := by
      have := h1 x (List.mem_cons_self _ _)
      omega
    rw [List.cons_append, insert_change_request, if_neg hx,
      ih (fun z hz => h1 z (List.mem_cons_of_mem _ hz))]
    rfl

theorem process_change_requests_append (l l' : List change_request_t) (s : State) :
    process_change_requests (l ++ l') s =
      ((process_change_requests l' (process_change_requests l s).1).1,
        (process_change_requests l s).2 ++
          (process_change_requests l' (process_change_requests l s).1).2) := by
  induction l generalizing s with
  | nil =>
    rw [List.nil_append, process_change_requests]
    dsimp only
    rw [process_change_requests_requests l' s []]
    simp
  | cons r rest ih =>
    rw [List.cons_append, process_change_requests, process_change_requests]
    dsimp only
    rw [process_change_requests_requests (rest ++ l') _ (rest ++ l'),
      process_change_requests_requests rest _ rest, ih]
    simp

theorem first_alarm_split (i : Int) (l : List alarm_t) (a : alarm_t)
    (h : first_alarm i l = some a) :
    ∃ before after, l = before ++ a :: after ∧ a.id = i ∧ ∀ b ∈ before, b.id ≠ i := by
  induction l with
  | nil => simp [first_alarm] at h
  | cons x rest ih =>
    by_cases hx : x.id = i
    · simp only [first_alarm, List.find?_cons_of_pos, hx, decide_True, Option.some.injEq] at h
      subst h
      exact ⟨[], rest, rfl, hx, by simp⟩
    · have h' : first_alarm i rest = some a := by
        simpa [first_alarm, hx] using h
      obtain ⟨before, after, h1, h2, h3⟩ := ih h'
      refine ⟨x :: before, after, by simp [h1], h2, ?_⟩
      intro b hb
      rcases List.mem_cons.1 hb with rfl | hb
      · exact hx
      · exact h3 b hb

theorem first_alarm_at (i : Int) (a : alarm_t) (before after : List alarm_t)
    (ha : a.id = i) (hb : ∀ b ∈ before, b.id ≠ i) :
    first_alarm i (before ++ a :: after) = some a := by
  induction before with
  | nil => simp [first_alarm, ha]
  | cons x rest ih =>
    have hx : x.id ≠ i := hb x (List.mem_cons_self _ _)
    have := ih (fun b hb' => hb b (List.mem_cons_of_mem _ hb'))
    simpa [first_alarm, hx] using this

theorem first_alarm_skip (i : Int) (a a' : alarm_t) (before after : List alarm_t)
    (ha : a.id ≠ i) (ha' : a'.id ≠ i) :
    first_alarm i (before ++ a' :: after) = first_alarm i (before ++ a :: after) := by
  induction before with
  | nil => simp [first_alarm, ha, ha']
  | cons x rest ih =>
    by_cases hx : x.id = i
    · simp [first_alarm, hx]
    · simpa [first_alarm, hx] using ih

theorem first_match_or_none (x : Int) (l : List alarm_t) :
    (∀ b ∈ l, b.id ≠ x) ∨
      ∃ before a after, l = before ++ a :: after ∧ a.id = x ∧ ∀ b ∈ before, b.id ≠ x := by
  induction l with
  | nil => exact Or.inl (by simp)
  | cons y rest ih =>
    by_cases hy : y.id = x
    · exact Or.inr ⟨[], y, rest, rfl, hy, by simp⟩
    · rcases ih with h | ⟨before, a, after, h1, h2, h3⟩
      · left
        intro b hb
        rcases List.mem_cons.1 hb with rfl | hb
        · exact hy
        · exact h b hb
      · right
        refine ⟨y :: before, a, after, by simp [h1], h2, ?_⟩
        intro b hb
        rcases List.mem_cons.1 hb with rfl | hb
        · exact hy
        · exact h3 b hb

theorem apply_change_request_other (r : change_request_t) (s : State) (i : Int)
    (hr : r.alarm_id ≠ i) :
    first_alarm i (apply_change_request r s).1.alarm_list = first_alarm i s.alarm_list := by
  rcases first_match_or_none r.alarm_id s.alarm_list with h | ⟨before, a, after, h1, h2, h3⟩
  · rw [apply_change_request, search_alarm_not_found r s s.alarm_list h []]
  · rw [apply_change_request, h1, search_alarm_found r s a before after h2 h3 []]
    have e1 : (change_alarm r a s).1.id ≠ i := by
      rw [(change_alarm_fields r a s).1, h2]
      exact hr
    have e2 : a.id ≠ i := by
      rw [h2]
      exact hr
    simpa using first_alarm_skip i a (change_alarm r a s).1 before after e2 e1

theorem apply_change_request_target (r : change_request_t) (s : State) (a : alarm_t)
    (h : first_alarm r.alarm_id s.alarm_list = some a) :
    first_alarm r.alarm_id (apply_change_request r s).1.alarm_list =
      some (change_alarm r a s).1 := by
  obtain ⟨before, after, h1, h2, h3⟩ := first_alarm_split _ _ _ h
  rw [apply_change_request, h1, search_alarm_found r s a before after h2 h3 []]
  have e1 : (change_alarm r a s).1.id = r.alarm_id := by
    rw [(change_alarm_fields r a s).1, h2]
  simpa using first_alarm_at r.alarm_id (change_alarm r a s).1 before after e1 h3

theorem process_change_requests_other (l : List change_request_t) (s : State) (i : Int)
    (hl : ∀ r ∈ l, r.alarm_id ≠ i) :
    first_alarm i (process_change_requests l s).1.alarm_list = first_alarm i s.alarm_list := by
  induction l generalizing s with
  | nil => rfl
  | cons r rest ih =>
    rw [process_change_requests]
    dsimp only
    rw [process_change_requests_requests rest _ rest,
      ih _ (fun x hx => hl x (List.mem_cons_of_mem _ hx))]
    exact apply_change_request_other r s i (hl r (List.mem_cons_self _ _))

theorem expire_step_alarm_list (now : Int) (s : State) :
    (expire_step now s).1.alarm_list = s.alarm_list.drop 1 := by
  unfold expire_step
  cases h : s.alarm_list with
  | nil => simp [h]
  | cons a rest => simp [head_expired]

theorem process_change_requests_cons (r : change_request_t) (rest : List change_request_t)
    (s : State) :
    process_change_requests (r :: rest) s =
      ((process_change_requests rest (apply_change_request r s).1).1,
        (apply_change_request r s).2 ++
          (process_change_requests rest (apply_change_request r s).1).2) := by
  rw [process_change_requests]
  dsimp only
  rw [process_change_requests_requests rest _ rest]

theorem insert_change_request_mem (r x : change_request_t) (q : List change_request_t) :
    x ∈ insert_change_request r q ↔ x = r ∨ x ∈ q := by
  obtain ⟨l1, l2, h1, h2, -⟩ := insert_change_request_split r q
  rw [h2, h1]
  simp only [List.mem_append, List.mem_cons]
  tauto

theorem insert_change_request_sorted (r : change_request_t) (q : List change_request_t)
    (h : q.Pairwise (fun x y => x.alarm_id ≤ y.alarm_id)) :
    (insert_change_request r q).Pairwise (fun x y => x.alarm_id ≤ y.alarm_id) := by
  induction q with
  | nil => simp [insert_change_request]
  | cons next rest ih =>
    obtain ⟨hn, hrest⟩ := List.pairwise_cons.1 h
    by_cases c : next.alarm_id ≥ r.alarm_id
    · rw [insert_change_request, if_pos c]
      refine List.pairwise_cons.2 ⟨?_, h⟩
      intro y hy
      rcases List.mem_cons.1 hy with rfl | hy
      · exact c
      · have := hn y hy
        omega
    · rw [insert_change_request, if_neg c]
      refine List.pairwise_cons.2 ⟨?_, ih hrest⟩
      intro y hy
      rcases (insert_change_request_mem r y rest).1 hy with rfl | hy
      · omega
      · exact hn y hy

theorem Start_Alarm_requests (alarm_id group_id seconds : Int) (message : String)
    (now junk_reassigned junk_message_changed : Int) (s : State) :
    (Start_Alarm alarm_id group_id seconds message now junk_reassigned junk_message_changed
      s).1.change_request_list = s.change_request_list := by
  unfold Start_Alarm
  cases e : assign_existing group_id
      { alarm := ⟨alarm_id⟩, reassigned := junk_reassigned,
        message_changed := junk_message_changed } s.display_alarm_thread_list with
  | none => simp [e]
  | some p => simp [e]

theorem reachable_requests_sorted (s : State) (h : Reachable s) :
    s.change_request_list.Pairwise (fun x y => x.alarm_id ≤ y.alarm_id) := by
  induction h with
  | init => simp [State.init]
  | step _ st ih =>
    cases st with
    | start_alarm =>
      rw [Start_Alarm_requests]
      exact ih
    | change_alarm => exact insert_change_request_sorted _ _ ih
    | monitor now =>
      rw [alarm_monitor_pass]
      dsimp only
      rw [process_change_requests_empties]
      exact List.Pairwise.nil
    | display i => exact ih

/-- The list logic of the change loop, every `printf` taken as returning: in a reachable
state let request r1 be queued, with no other queued request for its alarm id i, and let
alarm `a` be the first alarm with id i behind the Registry head. When a second request r2
for i is typed, `insert_change_request` puts r2 directly in front of r1; the loop reaches
r2 with the alarm untouched, applies r2, then r1, then the requests behind, and the alarm
ends with the group, expiry time and message of r1. What the loop does as written is in
`change_loop_as_written`. -/
theorem later_request_applied_first (s : State) (hs : Reachable s) (a : alarm_t)
    (r1 : change_request_t) (l1 l2 : List change_request_t) (g2 d2 : Int) (m2 : String)
    (t2 now : Int)
    (hq : s.change_request_list = l1 ++ r1 :: l2)
    (hl1 : ∀ r ∈ l1, r.alarm_id ≠ r1.alarm_id) (hl2 : ∀ r ∈ l2, r.alarm_id ≠ r1.alarm_id)
    (ha : first_alarm r1.alarm_id (s.alarm_list.drop 1) = some a) :
    ∃ (reached : State) (a2 a1 : alarm_t),
      (Change_Alarm r1.alarm_id g2 d2 m2 t2 s).1.change_request_list =
        l1 ++ new_request r1.alarm_id g2 d2 m2 t2 :: r1 :: l2 ∧
      reached = (process_change_requests l1
        (expire_step now (Change_Alarm r1.alarm_id g2 d2 m2 t2 s).1).1).1 ∧
      first_alarm r1.alarm_id reached.alarm_list = some a ∧
      first_alarm r1.alarm_id
          (apply_change_request (new_request r1.alarm_id g2 d2 m2 t2) reached).1.alarm_list =
        some a2 ∧
      a2.group_id = g2 ∧ a2.time = t2 + d2 ∧ a2.message = m2 ∧
      first_alarm r1.alarm_id
          (apply_change_request r1
            (apply_change_request (new_request r1.alarm_id g2 d2 m2 t2)
              reached).1).1.alarm_list = some a1 ∧
      a1.group_id = r1.new_group_id ∧ a1.time = r1.new_time ∧
      a1.message = r1.new_message ∧
      (alarm_monitor_pass now (Change_Alarm r1.alarm_id g2 d2 m2 t2 s).1).1 =
        (process_change_requests l2
          (apply_change_request r1
            (apply_change_request (new_request r1.alarm_id g2 d2 m2 t2) reached).1).1).1 ∧
      first_alarm r1.alarm_id
          (alarm_monitor_pass now (Change_Alarm r1.alarm_id g2 d2 m2 t2 s).1).1.alarm_list =
        some a1 := by
  have hsorted := reachable_requests_sorted s hs
  rw [hq, List.pairwise_append] at hsorted
  have hlt : ∀ x ∈ l1, x.alarm_id < (new_request r1.alarm_id g2 d2 m2 t2).alarm_id := by
    intro x hx
    have h1 := hsorted.2.2 x hx r1 (List.mem_cons_self _ _)
    have h2 := hl1 x hx
    show x.alarm_id < r1.alarm_id
    omega
  have hq2 : (Change_Alarm r1.alarm_id g2 d2 m2 t2 s).1.change_request_list =
      l1 ++ new_request r1.alarm_id g2 d2 m2 t2 :: r1 :: l2 := by
    simp only [Change_Alarm, hq]
    exact insert_change_request_before _ _ l1 l2 hlt (le_refl r1.alarm_id)
  have hE : first_alarm r1.alarm_id
      (expire_step now (Change_Alarm r1.alarm_id g2 d2 m2 t2 s).1).1.alarm_list = some a := by
    rw [expire_step_alarm_list]
    exact ha
  have hreached := process_change_requests_other l1
    (expire_step now (Change_Alarm r1.alarm_id g2 d2 m2 t2 s).1).1 r1.alarm_id hl1
  rw [hE] at hreached
  have h2 := apply_change_request_target (new_request r1.alarm_id g2 d2 m2 t2) _ a hreached
  have h1 := apply_change_request_target r1 _ _ h2
  have hpass : (alarm_monitor_pass now (Change_Alarm r1.alarm_id g2 d2 m2 t2 s).1).1 =
      (process_change_requests l2
        (apply_change_request r1
          (apply_change_request (new_request r1.alarm_id g2 d2 m2 t2)
            (process_change_requests l1
              (expire_step now (Change_Alarm r1.alarm_id g2 d2 m2 t2 s).1).1).1).1).1).1 := by
    rw [alarm_monitor_pass]
    dsimp only
    rw [expire_step_keeps_requests, hq2, process_change_requests_append]
    simp only [process_change_requests_cons]
  refine ⟨_, _, _, hq2, rfl, hreached, h2, ?_, ?_, ?_, h1, ?_, ?_, ?_, hpass, ?_⟩
  · exact (change_alarm_fields _ _ _).2.2.1
  · exact (change_alarm_fields _ _ _).2.1
  · exact (change_alarm_fields _ _ _).2.2.2
  · exact (change_alarm_fields _ _ _).2.2.1
  · exact (change_alarm_fields _ _ _).2.1
  · exact (change_alarm_fields _ _ _).2.2.2
  · rw [hpass, process_change_requests_other l2 _ r1.alarm_id hl2]
    exact h1

theorem later_request_applied_first_witness :
    Reachable (Change_Alarm 2 2 20 "r1" 3 two_alarm_scenario).1 ∧
    (Change_Alarm 2 3 30 "r2" 4
        (Change_Alarm 2 2 20 "r1" 3 two_alarm_scenario).1).1.change_request_list =
      [new_request 2 3 30 "r2" 4, new_request 2 2 20 "r1" 3] ∧
    ∃ a1, first_alarm 2 (alarm_monitor_pass 1 (Change_Alarm 2 3 30 "r2" 4
        (Change_Alarm 2 2 20 "r1" 3 two_alarm_scenario).1).1).1.alarm_list = some a1 ∧
      a1.group_id = 2 ∧ a1.time = 3 + 20 ∧ a1.message = "r1" := by
  have hr : Reachable (Change_Alarm 2 2 20 "r1" 3 two_alarm_scenario).1 :=
    Reachable.step (Reachable.step (Reachable.step Reachable.init
      (Step.start_alarm 1 1 5 "a" 0 0 0 _)) (Step.start_alarm 2 1 100 "b" 0 0 0 _))
      (Step.change_alarm 2 2 20 "r1" 3 _)
  refine ⟨hr, by decide, ?_⟩
  obtain ⟨_, _, a1, _, _, _, _, _, _, _, _, hg, ht, hm, _, hf⟩ :=
    later_request_applied_first (Change_Alarm 2 2 20 "r1" 3 two_alarm_scenario).1 hr
      { id := 2, group_id := 1, seconds := 100, time := 100, message := "b",
        display_thread_id := 1 } (new_request 2 2 20 "r1" 3) [] [] 3 30 "r2" 4 1
      (by decide) (by decide) (by decide) (by decide)
  exact ⟨a1, hf, hg, ht, hm⟩

/-! ## The load counter in the program as written -/

theorem apply_change_request_keeps_requests (r : change_request_t) (s : State) :
    (apply_change_request r s).1.change_request_list = s.change_request_list := by
  have h := search_alarm_requests r s s.change_request_list [] s.alarm_list
  have h' := congrArg (fun p => p.1.change_request_list) h
  exact h'

/-- With a request linked, the change loop as written faults at the first request with no
line printed and every request still linked. -/
theorem change_loop_as_written_faults (s : State) (r : change_request_t)
    (rest : List change_request_t) (h : s.change_request_list = r :: rest) :
    change_loop_as_written s = Outcome.faulted (apply_change_request r s).1 [] ∧
    (apply_change_request r s).1.change_request_list = r :: rest := by
  constructor
  · simp only [change_loop_as_written, h]
  · rw [apply_change_request_keeps_requests, h]

/-- C8 at the failing input: the queue holds one request, for id 7, and no alarm has that
id. The change loop as written finds no alarm and faults at the `printf` of line 309: the
state is left as it was, the request is still linked and no line has been printed. A whole
monitor iteration removes the head alarm first and ends the same way. -/
theorem invalid_request_faults :
    invalid_request_scenario.change_request_list = [new_request 7 1 10 "x" 4] ∧
    registry_ids invalid_request_scenario.alarm_list = [2] ∧
    change_loop_as_written invalid_request_scenario =
      Outcome.faulted invalid_request_scenario [] ∧
    alarm_monitor_pass_as_written 1 invalid_request_scenario =
      Outcome.faulted { invalid_request_scenario with alarm_list := [] }
        [Event.alarm_removed_expired 2] := by
  decide

/-! ## The expiry step and the timed wait -/

/-- The atomic expiry step is the expiry step with the timed wait in which the state does
not change. -/
theorem expire_step_eq_waited (now : Int) (s : State) :
    expire_step now s = expire_step_waited now s s := by
  unfold expire_step expire_step_waited remove_expired_head
  cases h : s.alarm_list with
  | nil => rfl
  | cons a rest => simp [head_expired]

/-- An alarm linked in front of the list during the timed wait is the one removed when the
wait is over: the iteration started at time 1 waits for alarm 2 (expiry time 60); alarm 1
with expiry time 102 is typed at time 2; at the deadline alarm 1 is removed and alarm 2
stays. -/
theorem wait_removes_inserted_head :
    registry_ids waiting_scenario.alarm_list = [2] ∧
    (Start_Alarm 1 2 100 "a" 2 0 0 waiting_scenario).1.alarm_list =
      [{ id := 1, group_id := 2, seconds := 100, time := 102, message := "a",
         display_thread_id := 2 },
       { id := 2, group_id := 1, seconds := 60, time := 60, message := "b",
         display_thread_id := 1 }] ∧
    (expire_step_waited 1 waiting_scenario
        (Start_Alarm 1 2 100 "a" 2 0 0 waiting_scenario).1).1.alarm_list =
      [{ id := 2, group_id := 1, seconds := 60, time := 60, message := "b",
         display_thread_id := 1 }] ∧
    (expire_step_waited 1 waiting_scenario
        (Start_Alarm 1 2 100 "a" 2 0 0 waiting_scenario).1).2 =
      [Event.alarm_removed_expired 1] := by
  decide

/-- C14, as stated, fails. With two requests for alarm 2 queued (the later one, r2, in
front) the monitor iteration as written removes the head alarm 1, writes the values of r2
into alarm 2 and faults at the `printf` of line 299: alarm 2 is left with the values of r2
and r1 is never applied. With the two requests aimed at the only alarm of the Registry the
iteration removes that alarm first and no alarm is left to take the values of r1. -/
theorem change_loop_stops_at_later_request :
    two_request_scenario.change_request_list =
      [new_request 2 2 30 "r2" 4, new_request 2 2 20 "r1" 3] ∧
    alarm_monitor_pass_as_written 1 two_request_scenario =
      Outcome.faulted
        { alarm_list :=
            [{ id := 2, group_id := 2, seconds := 100, time := 34, message := "r2",
               display_thread_id := 2 }]
          change_request_list := [new_request 2 2 30 "r2" 4, new_request 2 2 20 "r1" 3]
          display_alarm_thread_list :=
            [{ thread_id := 2, group_id := 2, alarm_count := 0, alarm_queue := [] },
             { thread_id := 1, group_id := 1, alarm_count := 0, alarm_queue := [] }]
          threads_created := 2 }
        [Event.alarm_removed_expired 1] ∧
    single_alarm_scenario.change_request_list =
      [new_request 1 3 30 "r2" 4, new_request 1 2 20 "r1" 3] ∧
    registry_ids single_alarm_scenario.alarm_list = [1] ∧
    alarm_monitor_pass_as_written 1 single_alarm_scenario =
      Outcome.faulted { single_alarm_scenario with alarm_list := [] }
        [Event.alarm_removed_expired 1] := by
  decide

/-- C14, amended: when a request r1 for alarm id i is in the queue and a second request r2
for i is inserted, `insert_change_request` puts r2 ahead of r1: the queue is the old queue
with r2 put in at one place in front of r1, and every request in front of r2 has a smaller
alarm id. The same queue is the one the `Change_Alarm` command leaves. -/
theorem later_request_queued_ahead (s : State) (r1 : change_request_t)
    (l1 l2 : List change_request_t) (g2 d2 : Int) (m2 : String) (t2 : Int) :
    ∃ la lb, l1 = la ++ lb ∧ (∀ x ∈ la, x.alarm_id < r1.alarm_id) ∧
      insert_change_request (new_request r1.alarm_id g2 d2 m2 t2) (l1 ++ r1 :: l2) =
        la ++ new_request r1.alarm_id g2 d2 m2 t2 :: (lb ++ r1 :: l2) ∧
      (Change_Alarm r1.alarm_id g2 d2 m2 t2
          { s with change_request_list := l1 ++ r1 :: l2 }).1.change_request_list =
        la ++ new_request r1.alarm_id g2 d2 m2 t2 :: (lb ++ r1 :: l2) := by
  have key : ∃ la lb, l1 = la ++ lb ∧ (∀ x ∈ la, x.alarm_id < r1.alarm_id) ∧
      insert_change_request (new_request r1.alarm_id g2 d2 m2 t2) (l1 ++ r1 :: l2) =
        la ++ new_request r1.alarm_id g2 d2 m2 t2 :: (lb ++ r1 :: l2) := by
    induction l1 with
    | nil =>
      refine ⟨[], [], rfl, by simp, ?_⟩
      have h : r1.alarm_id ≥ (new_request r1.alarm_id g2 d2 m2 t2).alarm_id := le_refl _
      rw [List.nil_append, insert_change_request, if_pos h]
      rfl
    | cons x rest ih =>
      by_cases c : x.alarm_id ≥ (new_request r1.alarm_id g2 d2 m2 t2).alarm_id
      · refine ⟨[], x :: rest, rfl, by simp, ?_⟩
        rw [List.cons_append, insert_change_request, if_pos c]
        rfl
      · obtain ⟨la, lb, h1, h2, h3⟩ := ih
        refine ⟨x :: la, lb, by rw [h1]; rfl, ?_, ?_⟩
        · intro y hy
          rcases List.mem_cons.1 hy with rfl | hy
          · have : ¬ y.alarm_id ≥ r1.alarm_id := c
            omega
          · exact h2 y hy
        · rw [List.cons_append, insert_change_request, if_neg c, h3]
          rfl
  obtain ⟨la, lb, h1, h2, h3⟩ := key
  exact ⟨la, lb, h1, h2, h3, by simp only [Change_Alarm, h3]⟩

end AlarmCond
